import Mathlib

/-!
A shallow embedding of the concurrency-control core of the `coco` repository
(Scar commit protocol, executor retry loop, R-Store phase cycle, Aria
transaction primitives), together with theorems checking the natural-language
specification against the embedded code.

Machine words are modelled as `Nat` with explicit `%`-masking where the bit
layout matters.  Per-record atomics are modelled single-threaded: an atomic is
the current value stored in the database map, and a CAS in straight-line
protocol code succeeds.  Message sends and flushes are recorded as events in a
trace.
-/

namespace Coco

/-! ## TID word helpers

Modelled from the spec: `ScarHelper.h` is not under `src/`; the bit layout and
the operations are taken from the specification (§3 "TID" and §4.1):
bit 63 is the lock bit, bits 62..32 the 31-bit `wts`, bits 31..5 the 27-bit
`rts - wts` delta, bits 4..0 unused. -/

namespace ScarHelper

/-- Modelled from the spec: `ScarHelper::get_wts` — bits 62..32 of the TID word. -/
def get_wts (t : Nat) : Nat := t / 2 ^ 32 % 2 ^ 31

/-- Modelled from the spec: the 27-bit `rts - wts` delta, bits 31..5. -/
def get_delta (t : Nat) : Nat := t / 2 ^ 5 % 2 ^ 27

/-- Modelled from the spec: `ScarHelper::get_rts` — `wts + delta`. -/
def get_rts (t : Nat) : Nat := get_wts t + get_delta t

/-- Modelled from the spec: `ScarHelper::is_locked` — bit 63 of the TID word. -/
def is_locked (t : Nat) : Bool := t / 2 ^ 63 % 2 = 1

/-- Set the lock bit of a (64-bit) TID word, keeping the other fields. -/
def set_lock_bit (t : Nat) : Nat := t % 2 ^ 63 + 2 ^ 63

/-- Clear the lock bit of a (64-bit) TID word, keeping the other fields. -/
def remove_lock_bit (t : Nat) : Nat := t % 2 ^ 63

/-- Encode a TID word from a `wts`, a delta and a lock flag. -/
def make_tid (wts delta : Nat) (locked : Bool) : Nat :=
  (if locked then 2 ^ 63 else 0) + wts % 2 ^ 31 * 2 ^ 32 + delta % 2 ^ 27 * 2 ^ 5

/-- Modelled from the spec: `ScarHelper::lock` — CAS loop on the atomic TID.
If the lock bit is set, fail without spinning; otherwise set the lock bit.
Returns `(old value, success, new stored value)`; in the single-threaded
model the CAS succeeds whenever the word is not locked. -/
def lock (t : Nat) : Nat × Bool × Nat :=
  if is_locked t then (t, false, t) else (t, true, set_lock_bit t)

/-- Modelled from the spec: `ScarHelper::unlock` — store the value with the
lock bit cleared. -/
def unlock (t : Nat) : Nat := remove_lock_bit t

/-- Modelled from the spec: `ScarHelper::unlock_with_commit` (spelled
`unlock(tid, commit_wts)` at the call sites in `Scar.h`) — encode a new TID
with `wts = rts = commit_wts` and the lock bit clear. -/
def unlock_with_commit (commit_wts : Nat) : Nat :=
  make_tid commit_wts 0 false

/-- Modelled from the spec: `ScarHelper::validate_read_key` (§4.1).
Arguments: the current value `latest` of the record's atomic TID, the TID
`read_tid` captured at read time, the commit timestamp, and the current value
of the caller's `written_ts` out-parameter.  Returns
`(success, written_ts out-value, new stored TID)`.
1.  If `wts latest ≠ wts read_tid`, fail.
2.  If `commit_ts ≤ rts latest`, succeed with `written_ts = latest`.
3.  Otherwise (Scar rts extension): if the record is locked (necessarily by
    another transaction, since keys in the own write set are not validated
    here), fail; else CAS in an extended TID whose delta is clamped to the
    27-bit saturation — in the single-threaded model the CAS succeeds. -/
def validate_read_key (latest read_tid commit_ts written : Nat) : Bool × Nat × Nat :=
  if get_wts latest ≠ get_wts read_tid then (false, written, latest)
  else if commit_ts ≤ get_rts latest then (true, latest, latest)
  else if is_locked latest then (false, written, latest)
  else
    let d := min (commit_ts - get_wts latest) (2 ^ 27 - 1)
    let ext := make_tid (get_wts latest) d false
    (true, ext, ext)

end ScarHelper

/-! ## Records, database, partitioner, read/write-set keys -/

/-- The address of a record: which table (table id, partition id) and which
key object inside it.  Key objects are identified by a `Nat`, modelling the
key pointer stored in an `RWKey`. -/
structure Addr where
  table_id : Nat
  partition_id : Nat
  key : Nat
deriving DecidableEq

/-- One row of a table: opaque value bytes (modelled as `Nat`) and the
record's metadata word (the atomic TID). -/
structure Row where
  value : Nat
  tid : Nat
deriving DecidableEq

/-- The local view of the database: a total map from record addresses to
rows, mirroring `db.find_table(tableId, partitionId)` followed by
`search_metadata` / `update` on the key. -/
def Db : Type := Addr → Row

/-- Point update of the metadata word of one record. -/
def updateTid (db : Db) (a : Addr) (t : Nat) : Db :=
  fun a' => if a' = a then { db a' with tid := t } else db a'

/-- Point update of the value bytes of one record (`table->update`). -/
def updateValue (db : Db) (a : Addr) (v : Nat) : Db :=
  fun a' => if a' = a then { db a' with value := v } else db a'

/-- Point update of a whole row (used by replica installs that write both the
value and the TID). -/
def updateRow (db : Db) (a : Addr) (r : Row) : Db :=
  fun a' => if a' = a then r else db a'

/-- The partitioner interface used by `Scar.h` (see `core/Partitioner.h`,
described in spec §3/§4.2): master lookup and replica placement. -/
structure Partitioner where
  has_master_partition : Nat → Bool
  master_coordinator : Nat → Nat
  total_coordinators : Nat
  is_partition_replicated_on : Nat → Nat → Bool
  replica_num : Nat

/-- Modelled from the spec: the Scar `RWKey` (`ScarRWKey.h` is not under
`src/`).  Fields from spec §3: table id, partition id, key pointer, value
pointer, captured TID, and the bit flags. -/
structure ScarRWKey where
  table_id : Nat
  partition_id : Nat
  key : Nat
  value : Nat
  tid : Nat
  read_request : Bool
  local_index_read : Bool
  write_lock : Bool
  read_validation_success : Bool
  wts_change_in_read_validation : Bool
deriving DecidableEq

/-- The record address an `RWKey` refers to. -/
def ScarRWKey.addr (k : ScarRWKey) : Addr :=
  ⟨k.table_id, k.partition_id, k.key⟩

/-- The Scar transaction state used by the commit protocol (`ScarTransaction.h`
is not under `src/`; the fields are those read and written by `Scar.h` and
listed in spec §3). -/
structure ScarTxn where
  coordinator_id : Nat
  readSet : List ScarRWKey
  writeSet : List ScarRWKey
  abort_lock : Bool
  abort_read_validation : Bool
  commit_rts : Nat
  commit_wts : Nat
  pendingResponses : Nat
deriving DecidableEq

/-- Which `sync_messages` call site a flush event comes from. -/
inductive SyncSite
  | lockPhase
  | validatePhase
  | writeRepPhase
  | releasePhase
  | abortPhase
deriving DecidableEq

/-- Events emitted by the Scar commit path: message sends (one per
`MessageFactoryType::new_*_message` call) and flushes (`sync_messages`,
recording the `wait_response` flag and the `pendingResponses` value at the
flush). -/
inductive Ev
  | lockMsg (dest : Nat) (a : Addr) (keyOffset : Nat)
  | readValidationMsg (dest : Nat) (a : Addr) (keyOffset tid commit_ts : Nat)
  | writeMsg (dest : Nat) (a : Addr) (v : Nat)
  | replicationMsg (dest : Nat) (a : Addr) (v commit_wts : Nat)
  | releaseLockMsg (dest : Nat) (a : Addr) (commit_wts : Nat)
  | abortMsg (dest : Nat) (a : Addr)
  | sync (site : SyncSite) (wait : Bool) (pendingAtFlush : Nat)
deriving DecidableEq

/-- `Scar::sync_messages`: flush the outbound messages and, when
`wait_response` is set, pump the inbound queue until `pendingResponses`
drains to zero.  The event records the flag and the pending count at the
flush. -/
def sync_messages (site : SyncSite) (wait : Bool) (txn : ScarTxn) : ScarTxn × Ev :=
  (if wait then { txn with pendingResponses := 0 } else txn,
   Ev.sync site wait txn.pendingResponses)

/-! ## `Scar::compute_commit_ts` -/

/-- `Scar::compute_commit_ts`: a single accumulator `ts` starts at `0`, is
folded with `max ts (get_wts tid)` over the read set (giving `commit_rts`),
then with `max ts (get_rts tid + 1)` over the write set (giving
`commit_wts`). -/
def compute_commit_ts (txn : ScarTxn) : ScarTxn :=
  let ts0 := txn.readSet.foldl (fun ts k => max ts (ScarHelper.get_wts k.tid)) 0
  let ts1 := txn.writeSet.foldl (fun ts k => max ts (ScarHelper.get_rts k.tid + 1)) ts0
  { txn with commit_rts := ts0, commit_wts := ts1 }

/-- The maximum of a list of naturals, `0` if empty (specification-side
helper used to state what the folds compute). -/
def listMax (l : List Nat) : Nat := l.foldr max 0

theorem foldl_max_eq (f : ScarRWKey → Nat) (l : List ScarRWKey) (a : Nat) :
    l.foldl (fun ts k => max ts (f k)) a = max a (listMax (l.map f)) := by
  induction l generalizing a with
  | nil => simp [listMax]
  | cons x xs ih =>
      simp only [List.foldl_cons, List.map_cons, listMax, List.foldr_cons]
      rw [ih]
      simp [listMax, Nat.max_assoc]

theorem listMax_le_iff (l : List Nat) (b : Nat) :
    listMax l ≤ b ↔ ∀ x ∈ l, x ≤ b := by
  induction l with
  | nil => simp [listMax]
  | cons x xs ih =>
      simp [listMax, List.foldr_cons, Nat.max_le] at *
      intro _
      exact ih

/-! ## `Scar::lock_write_set` -/

/-- `ScarTransaction::get_read_key`: find the read-set entry whose key
pointer equals the given key pointer.  (`ScarTransaction.h` is not under
`src/`; modelled from the spec's transaction contract, §3.) -/
def get_read_key (readSet : List ScarRWKey) (k : Nat) : Option ScarRWKey :=
  readSet.find? (fun rk => rk.key = k)

/-- The loop body of `Scar::lock_write_set`, processing the write set from
index `i` on.  For a locally mastered key: CAS-lock the record; on CAS
failure set `abort_lock` and break; on success record the lock bit and the
latest TID in the write key, then compare the locked record's `wts` with the
`wts` of the TID captured when the key was read (`get_read_key`; the
`DCHECK(readKeyPtr != nullptr)` is modelled as `none` when the read key is
missing) and on mismatch set `abort_lock` and break.  For a remote key:
increment `pendingResponses` and emit a `LOCK` message to the partition's
master coordinator.  Returns the rewritten write-set suffix, the database,
the `abort_lock` contribution, the `pendingResponses` contribution and the
events of this suffix. -/
def lock_write_set_loop (P : Partitioner) (readSet : List ScarRWKey) :
    Nat → Db → List ScarRWKey →
    Option (List ScarRWKey × Db × Bool × Nat × List Ev)
  | _, db, [] => some ([], db, false, 0, [])
  | i, db, wk :: rest =>
    if P.has_master_partition wk.partition_id then
      let a := wk.addr
      let res := ScarHelper.lock (db a).tid
      if res.2.1 = false then
        some (wk :: rest, db, true, 0, [])
      else
        let db1 := updateTid db a res.2.2
        let wk1 := { wk with write_lock := true, tid := res.1 }
        match get_read_key readSet wk.key with
        | none => none
        | some rk =>
          if ScarHelper.get_wts res.1 ≠ ScarHelper.get_wts rk.tid then
            some (wk1 :: rest, db1, true, 0, [])
          else
            match lock_write_set_loop P readSet (i + 1) db1 rest with
            | none => none
            | some (rest1, db2, ab, pend, evs) =>
                some (wk1 :: rest1, db2, ab, pend, evs)
    else
      match lock_write_set_loop P readSet (i + 1) db rest with
      | none => none
      | some (rest1, db2, ab, pend, evs) =>
          some (wk :: rest1, db2, ab, pend + 1,
                Ev.lockMsg (P.master_coordinator wk.partition_id) wk.addr i :: evs)

/-- `Scar::lock_write_set`: run the locking loop over the whole write set,
flush and wait for lock responses (`sync_messages` with the default
`wait_response = true`), and return the value of `txn.abort_lock`. -/
def lock_write_set (P : Partitioner) (txn : ScarTxn) (db : Db) :
    Option (ScarTxn × Db × List Ev × Bool) :=
  match lock_write_set_loop P txn.readSet 0 db txn.writeSet with
  | none => none
  | some (ws1, db1, ab, pend, evs) =>
    let txn1 := { txn with
      writeSet := ws1
      abort_lock := txn.abort_lock || ab
      pendingResponses := txn.pendingResponses + pend }
    let se := sync_messages SyncSite.lockPhase true txn1
    some (se.1, db1, evs ++ [se.2], se.1.abort_lock)

/-! ## `Scar::validate_read_set` -/

/-- The lambda `isKeyInWriteSet` of `Scar::validate_read_set`: key-pointer
membership in the write set. -/
def isKeyInWriteSet (writeSet : List ScarRWKey) (k : Nat) : Bool :=
  writeSet.any (fun wk => wk.key = k)

/-- The loop body of `Scar::validate_read_set`, processing the read set from
index `i` on.  Local-index reads and keys in the write set are skipped.  For
a locally mastered key, run `validate_read_key` (with `written_ts`
initialised to the captured TID): on success set the
`read_validation_success` bit and, when the `wts` of the out-parameter
differs from the captured `wts`, set `wts_change_in_read_validation` and
overwrite the captured TID; on failure set `abort_read_validation` and
break.  For a remote key, increment `pendingResponses` and emit a
`READ_VALIDATION` message. -/
def validate_read_set_loop (P : Partitioner) (writeSet : List ScarRWKey)
    (commit_ts : Nat) :
    Nat → Db → List ScarRWKey →
    List ScarRWKey × Db × Bool × Nat × List Ev
  | _, db, [] => ([], db, false, 0, [])
  | i, db, rk :: rest =>
    if rk.local_index_read then
      let r := validate_read_set_loop P writeSet commit_ts (i + 1) db rest
      (rk :: r.1, r.2)
    else if isKeyInWriteSet writeSet rk.key then
      let r := validate_read_set_loop P writeSet commit_ts (i + 1) db rest
      (rk :: r.1, r.2)
    else if P.has_master_partition rk.partition_id then
      let a := rk.addr
      let v := ScarHelper.validate_read_key (db a).tid rk.tid commit_ts rk.tid
      if v.1 then
        let db1 := updateTid db a v.2.2
        let rk1 := { rk with read_validation_success := true }
        let rk2 :=
          if ScarHelper.get_wts v.2.1 ≠ ScarHelper.get_wts rk.tid then
            { rk1 with wts_change_in_read_validation := true, tid := v.2.1 }
          else rk1
        let r := validate_read_set_loop P writeSet commit_ts (i + 1) db1 rest
        (rk2 :: r.1, r.2)
      else
        (rk :: rest, db, true, 0, [])
    else
      let r := validate_read_set_loop P writeSet commit_ts (i + 1) db rest
      (rk :: r.1, r.2.1, r.2.2.1, r.2.2.2.1 + 1,
       Ev.readValidationMsg (P.master_coordinator rk.partition_id) rk.addr
         i rk.tid commit_ts :: r.2.2.2.2)

/-- `Scar::validate_read_set`: run the validation loop with
`commit_ts = txn.commit_wts`, flush and wait for responses, and return
`!txn.abort_read_validation`. -/
def validate_read_set (P : Partitioner) (txn : ScarTxn) (db : Db) :
    ScarTxn × Db × List Ev × Bool :=
  let r := validate_read_set_loop P txn.writeSet txn.commit_wts 0 db txn.readSet
  let txn1 := { txn with
    readSet := r.1
    abort_read_validation := txn.abort_read_validation || r.2.2.1
    pendingResponses := txn.pendingResponses + r.2.2.2.1 }
  let se := sync_messages SyncSite.validatePhase true txn1
  (se.1, r.2.1, r.2.2.2.2 ++ [se.2], !se.1.abort_read_validation)

/-! ## `Scar::write_and_replicate`, `Scar::release_lock`, `Scar::abort` -/

/-- The replication sub-loop of `Scar::write_and_replicate` for one write
key: for each coordinator `k`, skip it if the partition is not replicated on
`k` or `k` is the partition's master; install locally (lock, update the
value, `unlock(tid, commit_wts)`) when `k` is this coordinator, otherwise
increment `pendingResponses` and emit a `REPLICATE` message carrying the
value and `commit_wts`. -/
def replicate_one (P : Partitioner) (coordinator_id commit_wts : Nat)
    (wk : ScarRWKey) : Db → List Nat → Db × Nat × List Ev
  | db, [] => (db, 0, [])
  | db, k :: ks =>
    if !P.is_partition_replicated_on wk.partition_id k then
      replicate_one P coordinator_id commit_wts wk db ks
    else if k = P.master_coordinator wk.partition_id then
      replicate_one P coordinator_id commit_wts wk db ks
    else if k = coordinator_id then
      let db1 := updateRow db wk.addr
        ⟨wk.value, ScarHelper.unlock_with_commit commit_wts⟩
      replicate_one P coordinator_id commit_wts wk db1 ks
    else
      let r := replicate_one P coordinator_id commit_wts wk db ks
      (r.1, r.2.1 + 1,
       Ev.replicationMsg k wk.addr wk.value commit_wts :: r.2.2)

/-- The loop body of `Scar::write_and_replicate`: for each write key, write
locally (`table->update`) when the partition is mastered here, otherwise
increment `pendingResponses` and emit a `WRITE` message; then run the
replication sub-loop over all coordinators. -/
def write_and_replicate_loop (P : Partitioner) (coordinator_id commit_wts : Nat) :
    Db → List ScarRWKey → Db × Nat × List Ev
  | db, [] => (db, 0, [])
  | db, wk :: rest =>
    let w : Db × Nat × List Ev :=
      if P.has_master_partition wk.partition_id then
        (updateValue db wk.addr wk.value, 0, [])
      else
        (db, 1, [Ev.writeMsg (P.master_coordinator wk.partition_id) wk.addr wk.value])
    let rep := replicate_one P coordinator_id commit_wts wk w.1
      (List.range P.total_coordinators)
    let r := write_and_replicate_loop P coordinator_id commit_wts rep.1 rest
    (r.1, w.2.1 + rep.2.1 + r.2.1, w.2.2 ++ rep.2.2 ++ r.2.2)

/-- `Scar::write_and_replicate`: run the write/replicate loop, then flush
with `sync_messages(txn)` — the `wait_response` parameter defaults to
`true`, so this call waits until `pendingResponses` drains. -/
def write_and_replicate (P : Partitioner) (txn : ScarTxn) (db : Db) :
    ScarTxn × Db × List Ev :=
  let r := write_and_replicate_loop P txn.coordinator_id txn.commit_wts db txn.writeSet
  let txn1 := { txn with pendingResponses := txn.pendingResponses + r.2.1 }
  let se := sync_messages SyncSite.writeRepPhase true txn1
  (se.1, r.1, r.2.2 ++ [se.2])

/-- The loop body of `Scar::release_lock`: for each write key, when the
partition is mastered here update the value and `unlock(tid, commit_wts)`;
otherwise emit a `RELEASE_LOCK` message carrying `commit_wts`. -/
def release_lock_loop (P : Partitioner) (commit_wts : Nat) :
    Db → List ScarRWKey → Db × List Ev
  | db, [] => (db, [])
  | db, wk :: rest =>
    if P.has_master_partition wk.partition_id then
      let db1 := updateRow db wk.addr
        ⟨wk.value, ScarHelper.unlock_with_commit commit_wts⟩
      release_lock_loop P commit_wts db1 rest
    else
      let r := release_lock_loop P commit_wts db rest
      (r.1, Ev.releaseLockMsg (P.master_coordinator wk.partition_id) wk.addr
              commit_wts :: r.2)

/-- `Scar::release_lock`: run the release loop, then flush with
`sync_messages(txn, false)` — fire-and-forget. -/
def release_lock (P : Partitioner) (txn : ScarTxn) (db : Db) :
    ScarTxn × Db × List Ev :=
  let r := release_lock_loop P txn.commit_wts db txn.writeSet
  let se := sync_messages SyncSite.releasePhase false txn
  (se.1, r.1, r.2 ++ [se.2])

/-- The loop body of `Scar::abort`: write keys whose `write_lock_bit` is not
set are skipped; for the others, unlock the record locally
(`ScarHelper::unlock`) when the partition is mastered here, otherwise emit an
`ABORT` message to the partition's master coordinator. -/
def abort_loop (P : Partitioner) : Db → List ScarRWKey → Db × List Ev
  | db, [] => (db, [])
  | db, wk :: rest =>
    if wk.write_lock = false then
      abort_loop P db rest
    else if P.has_master_partition wk.partition_id then
      let db1 := updateTid db wk.addr (ScarHelper.unlock (db wk.addr).tid)
      abort_loop P db1 rest
    else
      let r := abort_loop P db rest
      (r.1, Ev.abortMsg (P.master_coordinator wk.partition_id) wk.addr :: r.2)

/-- `Scar::abort`: run the unlock/abort-message loop, then flush with
`sync_messages(txn, false)` — fire-and-forget. -/
def scar_abort (P : Partitioner) (txn : ScarTxn) (db : Db) :
    ScarTxn × Db × List Ev :=
  let r := abort_loop P db txn.writeSet
  let se := sync_messages SyncSite.abortPhase false txn
  (se.1, r.1, r.2 ++ [se.2])

/-- `Scar::commit`: lock the write set (abort on failure), compute the commit
timestamps, validate the read set (abort on failure), then write/replicate
and release the locks.  Returns `(committed, txn, db, events)`; `none` models
a `DCHECK` failure inside `lock_write_set`. -/
def scar_commit (P : Partitioner) (txn : ScarTxn) (db : Db) :
    Option (Bool × ScarTxn × Db × List Ev) :=
  match lock_write_set P txn db with
  | none => none
  | some (txn1, db1, evs1, lockFailed) =>
    if lockFailed then
      let r := scar_abort P txn1 db1
      some (false, r.1, r.2.1, evs1 ++ r.2.2)
    else
      let txn2 := compute_commit_ts txn1
      let v := validate_read_set P txn2 db1
      if v.2.2.2 = false then
        let r := scar_abort P v.1 v.2.1
        some (false, r.1, r.2.1, evs1 ++ v.2.2.1 ++ r.2.2)
      else
        let w := write_and_replicate P v.1 v.2.1
        let rel := release_lock P w.1 w.2.1
        some (true, rel.1, rel.2.1, evs1 ++ v.2.2.1 ++ w.2.2 ++ rel.2.2)

/-! ## `Executor::start` (worker loop, `core/Executor.h`)

The loop body is modelled as a state transition.  The outcomes of
`execute()` and `protocol.commit(...)`, the abort flags the protocol leaves
on the transaction, and the amount of randomness consumed by
`next_transaction` are supplied by an oracle, since they depend on the
database and the network.  The RNG (`common/Random.h`, not under `src/`) is
modelled from the spec as a deterministic PRNG: a pure seed with
`get_seed`/`set_seed`; drawing randomness advances the seed by an
oracle-chosen pure function. -/

inductive TransactionResult
  | READY_TO_COMMIT
  | ABORT
  | ABORT_NORETRY
deriving DecidableEq

/-- The transaction object owned by the worker: an identity (allocation
counter value, modelling the `unique_ptr` object identity), the abort flags
the protocol sets, and how many times `reset()` ran on it. -/
structure TxnObj where
  objId : Nat
  abort_lock : Bool
  abort_read_validation : Bool
  resets : Nat
deriving DecidableEq

/-- Oracle for one loop iteration: what `execute()` returns, whether
`protocol.commit` succeeds, which abort flags a failed commit leaves on the
transaction, and the seed advance performed by the partition draw plus
`workload.next_transaction`. -/
structure ExecOracle where
  execResult : TransactionResult
  commitOk : Bool
  abortLockFlag : Bool
  abortRVFlag : Bool
  genAdvance : Nat → Nat

/-- The worker state threaded through `Executor::start`'s loop. -/
structure ExecState where
  seed : Nat
  retry_transaction : Bool
  transaction : Option TxnObj
  nextObjId : Nat
  n_commit : Nat
  n_abort_lock : Nat
  n_abort_read_validation : Nat
  n_abort_no_retry : Nat
deriving DecidableEq

/-- Events of one executor loop iteration. -/
inductive ExecEv
  | processRequest
  | resetTxn (objId : Nat)
  | genTxn (objId : Nat)
  | executeTxn (objId seed : Nat)
deriving DecidableEq

/-- One iteration of the `while (!stopFlag)` loop in `Executor::start`:
`process_request()`; capture `last_seed = random.get_seed()`; `reset()` the
transaction when retrying, else draw a partition and generate a new
transaction (advancing the seed); `execute()`; on `READY_TO_COMMIT` attempt
the commit — on success bump `n_commit` and clear the retry flag, on failure
bump `n_abort_lock` or `n_abort_read_validation` according to `abort_lock`,
restore the seed with `random.set_seed(last_seed)` and set the retry flag;
otherwise bump `n_abort_no_retry`.  `reset()` clears the abort flags
(`Transaction::reset`, spec §3 lifecycle) and keeps the same object. -/
def executor_iteration (o : ExecOracle) (st : ExecState) : ExecState × List ExecEv :=
  let last_seed := st.seed
  let gen :=
    if st.retry_transaction then
      match st.transaction with
      | none => none
      | some t =>
        let t1 := { t with abort_lock := false, abort_read_validation := false,
                           resets := t.resets + 1 }
        some (st.seed, t1, st.nextObjId, ExecEv.resetTxn t.objId)
    else
      let t1 : TxnObj := ⟨st.nextObjId, false, false, 0⟩
      some (o.genAdvance st.seed, t1, st.nextObjId + 1, ExecEv.genTxn st.nextObjId)
  match gen with
  | none => (st, [ExecEv.processRequest])
  | some (seed1, t1, nextId1, genEv) =>
    let evs := [ExecEv.processRequest, genEv, ExecEv.executeTxn t1.objId seed1]
    match o.execResult with
    | TransactionResult.READY_TO_COMMIT =>
      if o.commitOk then
        ({ st with seed := seed1, retry_transaction := false,
                   transaction := some t1, nextObjId := nextId1,
                   n_commit := st.n_commit + 1 }, evs)
      else
        let t2 := { t1 with abort_lock := o.abortLockFlag,
                            abort_read_validation := o.abortRVFlag }
        if t2.abort_lock then
          ({ st with seed := last_seed, retry_transaction := true,
                     transaction := some t2, nextObjId := nextId1,
                     n_abort_lock := st.n_abort_lock + 1 }, evs)
        else
          ({ st with seed := last_seed, retry_transaction := true,
                     transaction := some t2, nextObjId := nextId1,
                     n_abort_read_validation := st.n_abort_read_validation + 1 }, evs)
    | _ =>
      ({ st with seed := seed1, transaction := some t1, nextObjId := nextId1,
                 n_abort_no_retry := st.n_abort_no_retry + 1 }, evs)

/-! ## `RStoreExecutor::start` (phase cycle, `protocol/RStore/RStoreExecutor.h`)

One iteration of the outer `for (;;)` loop — one C-phase/S-phase cycle — is
modelled as the trace of its barrier- and work-events.  The unbounded
message-pump and yield loops are parametrised by their iteration counts. -/

/-- Trace items of one R-Store cycle: draining the per-worker queue `q`
(`commit_transactions`), the `n_started_workers` and `n_complete_workers`
increments, running a phase's transactions (`run_transaction`), one
`process_request()` call, and one `std::this_thread::yield()`. -/
inductive RItem
  | commitTxns
  | incStarted
  | incComplete
  | runTxn (cPhase : Bool)
  | procReq
  | yieldWait
deriving DecidableEq

/-- Count the occurrences of one item in a trace. -/
def countItem (x : RItem) (l : List RItem) : Nat :=
  (l.filter (fun y => y = x)).length

/-- The C-phase part of the cycle (lines 84–101 of `RStoreExecutor.h`):
on coordinator 0, `n_started_workers++`, `run_transaction(C_PHASE)`,
`n_complete_workers++`; on any other coordinator, `n_started_workers++`,
`process_request()` until the status turns `STOP` (`n` iterations observed),
one more `process_request()`, then `n_complete_workers++`. -/
def cPhasePart (isCoord0 : Bool) (n : Nat) : List RItem :=
  if isCoord0 then
    [RItem.incStarted, RItem.runTxn true, RItem.incComplete]
  else
    RItem.incStarted :: (List.replicate n RItem.procReq ++
      [RItem.procReq, RItem.incComplete])

/-- The S-phase part of the cycle (lines 115–119): `n_started_workers++`,
`run_transaction(S_PHASE)`, `n_complete_workers++`. -/
def sPhasePart : List RItem :=
  [RItem.incStarted, RItem.runTxn false, RItem.incComplete]

/-- After the post-S-phase `STOP` (lines 130–131): one `process_request()`
for replication requests, then another `n_complete_workers++` (the
coordinator has cleared the counter by then). -/
def postStopPart : List RItem :=
  [RItem.procReq, RItem.incComplete]

/-- One full iteration of the `for (;;)` loop in `RStoreExecutor::start`,
with the spin-wait loops parametrised by their observed iteration counts
`m1` (yield-wait for `S_PHASE`) and `m2` (yield-wait for `STOP`): drain `q`
(line 80), C-phase part, wait, drain `q` (line 111), S-phase part, wait,
post-stop part. -/
def rstore_cycle (isCoord0 : Bool) (n m1 m2 : Nat) : List RItem :=
  RItem.commitTxns :: cPhasePart isCoord0 n ++
    List.replicate m1 RItem.yieldWait ++
    RItem.commitTxns :: sPhasePart ++
    List.replicate m2 RItem.yieldWait ++ postStopPart

/-- The drain-before-run scanner: walking the trace with a flag that
`commitTxns` sets and `runTxn` clears, every `runTxn` must see the flag
set — i.e. the committed-transactions queue is drained between any two
phase-work items and before the first one. -/
def drainBeforeRun : Bool → List RItem → Bool
  | _, [] => true
  | _, RItem.commitTxns :: r => drainBeforeRun true r
  | d, RItem.runTxn _ :: r => d && drainBeforeRun false r
  | d, _ :: r => drainBeforeRun d r

/-! ## `AriaTransaction` (`protocol/Aria/AriaTransaction.h`) -/

/-- Modelled from the spec: the Aria `RWKey` (`AriaRWKey.h` is not under
`src/`).  Fields from spec §3: table id, partition id, key pointer, value
pointer, captured tid, and the bit flags used by `AriaTransaction.h`. -/
structure AriaRWKey where
  table_id : Nat
  partition_id : Nat
  key : Nat
  value : Nat
  tid : Nat
  read_request : Bool
  local_index_read : Bool
  write_lock : Bool
  execution_processed : Bool
deriving DecidableEq

/-- A fresh `AriaRWKey` (all fields default, flags clear), as
value-initialised in the primitives. -/
def AriaRWKey.mk0 : AriaRWKey :=
  ⟨0, 0, 0, 0, 0, false, false, false, false⟩

/-- The `AriaTransaction` state visible to the workload-facing primitives. -/
structure AriaTxn where
  coordinator_id : Nat
  partition_id : Nat
  id : Nat
  tid_offset : Nat
  epoch : Nat
  pendingResponses : Nat
  network_size : Nat
  local_read : Int
  remote_read : Int
  saved_local_read : Int
  saved_remote_read : Int
  abort_lock : Bool
  abort_no_retry : Bool
  abort_read_validation : Bool
  distributed_transaction : Bool
  execution_phase : Bool
  waw : Bool
  war : Bool
  raw : Bool
  active_coordinators : List Bool
  readSet : List AriaRWKey
  writeSet : List AriaRWKey
deriving DecidableEq

/-- `AriaTransaction::add_to_read_set`: push the key and return its index. -/
def AriaTxn.add_to_read_set (txn : AriaTxn) (k : AriaRWKey) : AriaTxn × Nat :=
  ({ txn with readSet := txn.readSet ++ [k] }, txn.readSet.length)

/-- `AriaTransaction::add_to_write_set`: push the key and return its index. -/
def AriaTxn.add_to_write_set (txn : AriaTxn) (k : AriaRWKey) : AriaTxn × Nat :=
  ({ txn with writeSet := txn.writeSet ++ [k] }, txn.writeSet.length)

/-- `AriaTransaction::search_local_index`: no-op during the execution phase;
otherwise append a read-set entry carrying the table id, partition id, key
and value pointers, with the `local_index_read` and `read_request` bits
set. -/
def AriaTxn.search_local_index (txn : AriaTxn)
    (table_id partition_id key value : Nat) : AriaTxn :=
  if txn.execution_phase then txn
  else
    let readKey := { AriaRWKey.mk0 with
      table_id := table_id, partition_id := partition_id,
      key := key, value := value,
      local_index_read := true, read_request := true }
    (txn.add_to_read_set readKey).1

/-- `AriaTransaction::search_for_read`: no-op during the execution phase;
otherwise append a read-set entry with the `read_request` bit set. -/
def AriaTxn.search_for_read (txn : AriaTxn)
    (table_id partition_id key value : Nat) : AriaTxn :=
  if txn.execution_phase then txn
  else
    let readKey := { AriaRWKey.mk0 with
      table_id := table_id, partition_id := partition_id,
      key := key, value := value, read_request := true }
    (txn.add_to_read_set readKey).1

/-- `AriaTransaction::search_for_update`: no-op during the execution phase;
otherwise append a read-set entry with the `read_request` bit set. -/
def AriaTxn.search_for_update (txn : AriaTxn)
    (table_id partition_id key value : Nat) : AriaTxn :=
  if txn.execution_phase then txn
  else
    let readKey := { AriaRWKey.mk0 with
      table_id := table_id, partition_id := partition_id,
      key := key, value := value, read_request := true }
    (txn.add_to_read_set readKey).1

/-- `AriaTransaction::update`: no-op during the execution phase; otherwise
append a write-set entry carrying the table id, partition id, key and value
pointers (no flags). -/
def AriaTxn.update (txn : AriaTxn)
    (table_id partition_id key value : Nat) : AriaTxn :=
  if txn.execution_phase then txn
  else
    let writeKey := { AriaRWKey.mk0 with
      table_id := table_id, partition_id := partition_id,
      key := key, value := value }
    (txn.add_to_write_set writeKey).1

/-- Clear the `read_request` bit (`AriaRWKey::clear_read_request_bit`). -/
def AriaRWKey.clearRR (k : AriaRWKey) : AriaRWKey :=
  { k with read_request := false }

/-- The loop of the closure installed by
`AriaTransaction::setup_process_requests_in_execution_phase`:
`for (int i = readSet.size() - 1; i >= 0; i--)` — walk the read set from the
back; break on the first entry whose `read_request` bit is clear; otherwise
invoke `aria_read_handler(readSet[i], id, i)` (recorded as the index `i` in
the returned invocation list, in call order) and clear the entry's
`read_request` bit.  The argument is the current index plus one. -/
def aria_exec_dequeue_loop (rs : List AriaRWKey) :
    Nat → List AriaRWKey × List Nat
  | 0 => (rs, [])
  | i + 1 =>
    match rs[i]? with
    | none => (rs, [])
    | some k =>
      if k.read_request then
        let rs1 := rs.set i k.clearRR
        let r := aria_exec_dequeue_loop rs1 i
        (r.1, i :: r.2)
      else (rs, [])

/-- The closure installed by
`setup_process_requests_in_execution_phase`, applied to the read set: run
the reverse-iteration dequeue starting at the last index. -/
def aria_process_requests_execution_phase (rs : List AriaRWKey) :
    List AriaRWKey × List Nat :=
  aria_exec_dequeue_loop rs rs.length

theorem listMax_mem (l : List Nat) (h : listMax l ≠ 0) : listMax l ∈ l := by
  induction l with
  | nil => simp [listMax] at h
  | cons x xs ih =>
      by_cases hx : listMax xs ≤ x
      · simp [listMax, List.foldr_cons] at *
        left
        omega
      · have : listMax (x :: xs) = listMax xs := by
          simp [listMax, List.foldr_cons] at *
          omega
        rw [this]
        right
        exact ih (by rw [this] at h; exact h)

/-! ## Claim C2 — `Scar::compute_commit_ts` -/

/-- C2: for every transaction entering Scar's commit phase,
`compute_commit_ts` sets `commit_rts` to the maximum over the read set of
the `wts` of the TID captured at read time, and sets `commit_wts` to the
maximum of `commit_rts` and, over every write-set key, the `rts` of the TID
captured for that key plus one; for an empty write set `commit_wts` equals
`commit_rts`. -/
theorem scar_compute_commit_ts_spec (txn : ScarTxn) :
    (compute_commit_ts txn).commit_rts =
      listMax (txn.readSet.map (fun k => ScarHelper.get_wts k.tid)) ∧
    (compute_commit_ts txn).commit_wts =
      max (compute_commit_ts txn).commit_rts
        (listMax (txn.writeSet.map (fun k => ScarHelper.get_rts k.tid + 1))) ∧
    (∀ rk ∈ txn.readSet,
      ScarHelper.get_wts rk.tid ≤ (compute_commit_ts txn).commit_rts) ∧
    (∀ wk ∈ txn.writeSet,
      ScarHelper.get_rts wk.tid + 1 ≤ (compute_commit_ts txn).commit_wts) ∧
    (txn.writeSet = [] →
      (compute_commit_ts txn).commit_wts = (compute_commit_ts txn).commit_rts) := by
  have h0 := foldl_max_eq (fun k => ScarHelper.get_wts k.tid) txn.readSet 0
  have h1 := foldl_max_eq (fun k => ScarHelper.get_rts k.tid + 1) txn.writeSet
      (txn.readSet.foldl (fun ts k => max ts (ScarHelper.get_wts k.tid)) 0)
  simp only [compute_commit_ts] at *
  refine ⟨by rw [h0]; omega, by rw [h1, h0], ?_, ?_, ?_⟩
  · intro rk hrk
    have hle : ScarHelper.get_wts rk.tid ≤
        listMax (txn.readSet.map (fun k => ScarHelper.get_wts k.tid)) :=
      (listMax_le_iff _ _).1 (le_refl _) _ (List.mem_map_of_mem _ hrk)
    omega
  · intro wk hwk
    have hle : ScarHelper.get_rts wk.tid + 1 ≤
        listMax (txn.writeSet.map (fun k => ScarHelper.get_rts k.tid + 1)) :=
      (listMax_le_iff _ _).1 (le_refl _) _ (List.mem_map_of_mem _ hwk)
    omega
  · intro hempty
    rw [hempty]
    simp

/-- A concrete read-set key used by the C2 witness. -/
def rkC2 : ScarRWKey :=
  ⟨0, 0, 0, 0, ScarHelper.make_tid 5 0 false, false, false, false, false, false⟩

/-- A concrete transaction with one read and an empty write set, used by the
C2 witness. -/
def txnC2 : ScarTxn :=
  ⟨0, [rkC2], [], false, false, 0, 0, 0⟩

/-- C2 witness: the hypotheses of `scar_compute_commit_ts_spec` hold at a
concrete transaction. -/
theorem scar_compute_commit_ts_spec_witness :
    ScarHelper.get_wts rkC2.tid ≤ (compute_commit_ts txnC2).commit_rts ∧
    (compute_commit_ts txnC2).commit_wts = (compute_commit_ts txnC2).commit_rts :=
  ⟨(scar_compute_commit_ts_spec txnC2).2.2.1 rkC2 (by decide),
   (scar_compute_commit_ts_spec txnC2).2.2.2.2 (by decide)⟩

/-! ## Claim C5 — `Scar::lock_write_set` -/

theorem lock_write_set_loop_isSome (P : Partitioner) (rs : List ScarRWKey) :
    ∀ ws : List ScarRWKey, ∀ i db,
    (∀ wk ∈ ws, P.has_master_partition wk.partition_id = true →
       ∃ rk ∈ rs, rk.key = wk.key) →
    (lock_write_set_loop P rs i db ws).isSome := by
  intro ws
  induction ws with
  | nil => intro i db _; simp [lock_write_set_loop]
  | cons wk rest ih =>
    intro i db hpre
    by_cases hm : P.has_master_partition wk.partition_id = true
    · have hfind : (get_read_key rs wk.key).isSome := by
        rcases hpre wk (by simp) hm with ⟨rk, hrk, hkey⟩
        rw [get_read_key, List.find?_isSome]
        exact ⟨rk, hrk, by simp [hkey]⟩
      rcases Option.isSome_iff_exists.1 hfind with ⟨rk, hrk⟩
      simp only [lock_write_set_loop, hm, if_true]
      by_cases hl : ScarHelper.is_locked (db wk.addr).tid = true
      · simp [ScarHelper.lock, hl]
      · simp only [ScarHelper.lock, Bool.not_eq_true] at hl
        simp only [ScarHelper.lock, hl, if_false, hrk]
        by_cases hw : ScarHelper.get_wts (db wk.addr).tid = ScarHelper.get_wts rk.tid
        · have := ih (i + 1) (updateTid db wk.addr (ScarHelper.set_lock_bit (db wk.addr).tid))
            (fun w hw hm1 => hpre w (by simp [hw]) hm1)
          rcases Option.isSome_iff_exists.1 this with ⟨r, hr⟩
          simp [hr, hw]
        · simp [hw]
    · simp only [lock_write_set_loop, hm, if_false]
      have := ih (i + 1) db (fun w hw hm1 => hpre w (by simp [hw]) hm1)
      rcases Option.isSome_iff_exists.1 this with ⟨r, hr⟩
      simp [hr]

/-- `lock_write_set` returns the value of `txn.abort_lock` after the loop
and the flush. -/
theorem lock_write_set_returns_abort_lock (P : Partitioner) (txn : ScarTxn)
    (db0 : Db) (res : ScarTxn × Db × List Ev × Bool)
    (h : lock_write_set P txn db0 = some res) : res.2.2.2 = res.1.abort_lock := by
  simp only [lock_write_set] at h
  rcases hm : lock_write_set_loop P txn.readSet 0 db0 txn.writeSet with _ | r
  · rw [hm] at h; exact absurd h (by simp)
  · rw [hm] at h
    simp only [Option.some_inj] at h
    subst h
    rfl

/-- C5: in `Scar::lock_write_set`, for a locally-mastered write-set key:
if the lock CAS fails (the record is already locked), `abort_lock` is set
and locking stops — the failing key and the keys after it are untouched and
no further messages are sent; if the lock succeeds but the `wts` observed at
lock time differs from the `wts` of the TID captured when the key was read,
the key keeps its freshly-set `write_lock` bit and captured TID, `abort_lock`
is set and locking stops; a remote write key instead emits a `LOCK` message
to the partition's master coordinator and increments `pendingResponses`;
under the no-blind-write precondition the `DCHECK` never fires; and
`lock_write_set` returns exactly the transaction's `abort_lock` flag. -/
theorem scar_lock_write_set_spec (P : Partitioner) (rs : List ScarRWKey)
    (i : Nat) (db : Db) (wk : ScarRWKey) (rest : List ScarRWKey) :
    (P.has_master_partition wk.partition_id = true →
      ScarHelper.is_locked (db wk.addr).tid = true →
      lock_write_set_loop P rs i db (wk :: rest) = some (wk :: rest, db, true, 0, []))
    ∧
    (P.has_master_partition wk.partition_id = true →
      ScarHelper.is_locked (db wk.addr).tid = false →
      ∀ rk, get_read_key rs wk.key = some rk →
      ScarHelper.get_wts (db wk.addr).tid ≠ ScarHelper.get_wts rk.tid →
      lock_write_set_loop P rs i db (wk :: rest) =
        some ({ wk with write_lock := true, tid := (db wk.addr).tid } :: rest,
              updateTid db wk.addr (ScarHelper.set_lock_bit (db wk.addr).tid),
              true, 0, []))
    ∧
    (P.has_master_partition wk.partition_id = false →
      ∀ r, lock_write_set_loop P rs (i + 1) db rest = some r →
      lock_write_set_loop P rs i db (wk :: rest) =
        some (wk :: r.1, r.2.1, r.2.2.1, r.2.2.2.1 + 1,
              Ev.lockMsg (P.master_coordinator wk.partition_id) wk.addr i ::
                r.2.2.2.2))
    ∧
    ((∀ w ∈ wk :: rest, P.has_master_partition w.partition_id = true →
        ∃ rk ∈ rs, rk.key = w.key) →
      (lock_write_set_loop P rs i db (wk :: rest)).isSome)
    ∧
    (∀ txn : ScarTxn, ∀ db0 : Db,
      ∀ res : ScarTxn × Db × List Ev × Bool,
      lock_write_set P txn db0 = some res → res.2.2.2 = res.1.abort_lock) := by
  refine ⟨?_, ?_, ?_, ?_, ?_⟩
  · intro hm hl
    simp [lock_write_set_loop, hm, ScarHelper.lock, hl]
  · intro hm hl rk hrk hw
    simp [lock_write_set_loop, hm, ScarHelper.lock, hl, hrk, hw]
  · intro hm r hr
    simp [lock_write_set_loop, hm, hr]
  · intro hpre
    exact lock_write_set_loop_isSome P rs (wk :: rest) i db hpre
  · intro txn db0 res h
    exact lock_write_set_returns_abort_lock P txn db0 res h

/-- Concrete partitioner for witnesses: everything locally mastered. -/
def pAllLocal : Partitioner :=
  ⟨fun _ => true, fun _ => 0, 1, fun _ _ => true, 1⟩

/-- Concrete database for the C5 witness: every record locked, `wts = 3`. -/
def dbC5 : Db := fun _ => ⟨0, ScarHelper.make_tid 3 0 true⟩

/-- Concrete write key for the C5 witness. -/
def wkC5 : ScarRWKey :=
  ⟨0, 0, 0, 0, ScarHelper.make_tid 3 0 false, false, false, false, false, false⟩

/-- C5 witness: the CAS-failure clause of `scar_lock_write_set_spec` fires at
a concrete locked record. -/
theorem scar_lock_write_set_spec_witness :
    lock_write_set_loop pAllLocal [wkC5] 0 dbC5 [wkC5] =
      some ([wkC5], dbC5, true, 0, []) :=
  (scar_lock_write_set_spec pAllLocal [wkC5] 0 dbC5 wkC5 []).1
    (by decide) (by decide)

/-! ## Claim C1 — `Scar::validate_read_set` -/

theorem get_wts_make_tid (w d : Nat) (b : Bool) :
    ScarHelper.get_wts (ScarHelper.make_tid w d b) = w % 2 ^ 31 := by
  simp only [ScarHelper.get_wts, ScarHelper.make_tid]
  cases b <;> simp <;> omega

/-- On success, the `written_ts` out-parameter of `validate_read_key` has the
same `wts` as the TID captured at read time: the success paths return either
the latest TID (whose `wts` equals the read TID's by step 1) or the
rts-extended TID, which keeps the `wts` field. -/
theorem validate_read_key_wts_eq (latest read_tid commit_ts w : Nat)
    (h : (ScarHelper.validate_read_key latest read_tid commit_ts w).1 = true) :
    ScarHelper.get_wts (ScarHelper.validate_read_key latest read_tid commit_ts w).2.1 =
      ScarHelper.get_wts read_tid := by
  by_cases h1 : ScarHelper.get_wts latest = ScarHelper.get_wts read_tid
  · simp only [ScarHelper.validate_read_key, h1, ne_eq, not_true_eq_false,
      if_false] at h ⊢
    by_cases h2 : commit_ts ≤ ScarHelper.get_rts latest
    · simpa [h2] using h1
    · by_cases h3 : ScarHelper.is_locked latest = true
      · simp [h2, h3] at h
      · simp only [Bool.not_eq_true] at h3
        simp only [h2, if_false, h3, Bool.false_eq_true, get_wts_make_tid]
        simp only [ScarHelper.get_wts]
        omega
  · simp [ScarHelper.validate_read_key, h1] at h

/-- C1 (amended): in `Scar::validate_read_set`, for a read-set key on a
locally-mastered partition that is not a local-index read and whose key is
not in the write set: if `validate_read_key` returns true, the entry gets its
`read_validation_success` bit, the `wts` of the TID it carries afterwards
equals the `wts` of the TID captured at read time, and its
`wts_change_in_read_validation` bit is left unchanged — in particular an rts
extension alone never sets it, because a successful validation forces the
written-back `wts` to equal the read `wts`; if `validate_read_key` returns
false, `abort_read_validation` is set, the loop stops (later read keys are
untouched and generate no messages), and `validate_read_set` returns
false. -/
theorem scar_validate_read_set_amended (P : Partitioner) (ws : List ScarRWKey)
    (commit_ts i : Nat) (db : Db) (rk : ScarRWKey) (rest : List ScarRWKey)
    (hidx : rk.local_index_read = false)
    (hws : isKeyInWriteSet ws rk.key = false)
    (hm : P.has_master_partition rk.partition_id = true) :
    ((ScarHelper.validate_read_key (db rk.addr).tid rk.tid commit_ts rk.tid).1 = true →
      validate_read_set_loop P ws commit_ts i db (rk :: rest) =
        (let v := ScarHelper.validate_read_key (db rk.addr).tid rk.tid commit_ts rk.tid
         let r := validate_read_set_loop P ws commit_ts (i + 1)
           (updateTid db rk.addr v.2.2) rest
         ({ rk with read_validation_success := true } :: r.1, r.2)) ∧
      ScarHelper.get_wts
          (ScarHelper.validate_read_key (db rk.addr).tid rk.tid commit_ts rk.tid).2.1 =
        ScarHelper.get_wts rk.tid)
    ∧
    ((ScarHelper.validate_read_key (db rk.addr).tid rk.tid commit_ts rk.tid).1 = false →
      validate_read_set_loop P ws commit_ts i db (rk :: rest) =
        (rk :: rest, db, true, 0, []))
    ∧
    (∀ txn : ScarTxn, ∀ db0 : Db,
      (validate_read_set_loop P txn.writeSet txn.commit_wts 0 db0 txn.readSet).2.2.1 = true →
      (validate_read_set P txn db0).1.abort_read_validation = true ∧
      (validate_read_set P txn db0).2.2.2 = false) := by
  refine ⟨?_, ?_, ?_⟩
  · intro hv
    have hwts := validate_read_key_wts_eq (db rk.addr).tid rk.tid commit_ts rk.tid hv
    refine ⟨?_, hwts⟩
    simp [validate_read_set_loop, hidx, hws, hm, hv, hwts]
  · intro hv
    simp [validate_read_set_loop, hidx, hws, hm, hv]
  · intro txn db0 hab
    constructor
    · simp [validate_read_set, sync_messages, hab]
    · simp [validate_read_set, sync_messages, hab]

/-- Concrete read key for C1: TID with `wts = 5`, `rts = 5`. -/
def rkC1 : ScarRWKey :=
  ⟨0, 0, 0, 0, ScarHelper.make_tid 5 0 false, false, false, false, false, false⟩

/-- Concrete read-only transaction for C1, already carrying
`commit_wts = 8`. -/
def txnC1 : ScarTxn :=
  ⟨0, [rkC1], [], false, false, 8, 8, 0⟩

/-- Concrete database for C1: the record has `wts = 5`, `rts = 5`,
unlocked. -/
def dbC1 : Db := fun _ => ⟨0, ScarHelper.make_tid 5 0 false⟩

/-- C1 counterexample: validating `txnC1` against `dbC1` with
`commit_ts = 8` succeeds and extends the record's `rts` from `5` to `8`
in place, yet the read key's `wts_change_in_read_validation` bit stays
clear — refuting "the bit is set exactly when validation extended the
record's rts". -/
theorem scar_validate_rts_extension_counterexample :
    (validate_read_set pAllLocal txnC1 dbC1).2.2.2 = true ∧
    (validate_read_set pAllLocal txnC1 dbC1).1.readSet =
      [{ rkC1 with read_validation_success := true }] ∧
    ({ rkC1 with read_validation_success := true } : ScarRWKey).wts_change_in_read_validation
      = false ∧
    ScarHelper.get_rts ((dbC1 rkC1.addr).tid) = 5 ∧
    ScarHelper.get_rts (((validate_read_set pAllLocal txnC1 dbC1).2.1 rkC1.addr).tid) = 8 := by
  refine ⟨by decide, by decide, by decide, by decide, by decide⟩

/-- C1 witness: the success clause of `scar_validate_read_set_amended` at the
concrete rts-extension input. -/
theorem scar_validate_read_set_amended_witness :
    ScarHelper.get_wts
        (ScarHelper.validate_read_key ((dbC1 rkC1.addr).tid) rkC1.tid 8 rkC1.tid).2.1 =
      ScarHelper.get_wts rkC1.tid :=
  ((scar_validate_read_set_amended pAllLocal [] 8 0 dbC1 rkC1 []
      (by decide) (by decide) (by decide)).1 (by decide)).2

/-! ## Claim C4 — `Scar::abort` -/

theorem remove_lock_bit_idem (t : Nat) :
    ScarHelper.remove_lock_bit (ScarHelper.remove_lock_bit t) =
      ScarHelper.remove_lock_bit t := by
  simp only [ScarHelper.remove_lock_bit]
  omega

/-- Whether the write set holds a key at address `a` that is locally mastered
and has its `write_lock` bit set. -/
def lockedLocalAt (P : Partitioner) (ws : List ScarRWKey) (a : Addr) : Prop :=
  ∃ wk ∈ ws, wk.write_lock = true ∧
    P.has_master_partition wk.partition_id = true ∧ wk.addr = a

instance (P : Partitioner) (ws : List ScarRWKey) (a : Addr) :
    Decidable (lockedLocalAt P ws a) := by
  unfold lockedLocalAt
  infer_instance

theorem abort_loop_db_char (P : Partitioner) :
    ∀ ws : List ScarRWKey, ∀ db : Db, ∀ a : Addr,
    (lockedLocalAt P ws a →
      (abort_loop P db ws).1 a =
        { db a with tid := ScarHelper.remove_lock_bit (db a).tid }) ∧
    (¬ lockedLocalAt P ws a → (abort_loop P db ws).1 a = db a) := by
  intro ws
  induction ws with
  | nil =>
    intro db a
    refine ⟨fun h => ?_, fun _ => rfl⟩
    rcases h with ⟨wk, hw, _⟩
    simp at hw
  | cons wk rest ih =>
    intro db a
    by_cases hb : wk.write_lock = true
    · by_cases hm : P.has_master_partition wk.partition_id = true
      · have hstep : abort_loop P db (wk :: rest) =
            abort_loop P
              (updateTid db wk.addr (ScarHelper.unlock (db wk.addr).tid)) rest := by
          simp [abort_loop, hb, hm]
        by_cases ha : wk.addr = a
        · have hda : updateTid db wk.addr (ScarHelper.unlock (db wk.addr).tid) a =
              { db a with tid := ScarHelper.remove_lock_bit (db a).tid } := by
            simp [updateTid, ha.symm, ScarHelper.unlock, ← ha]
          constructor
          · intro _
            rw [hstep]
            by_cases hr : lockedLocalAt P rest a
            · rw [(ih _ a).1 hr, hda]
              simp [remove_lock_bit_idem]
            · rw [(ih _ a).2 hr, hda]
          · intro hno
            exact absurd ⟨wk, by simp, hb, hm, ha⟩ hno
        · have hda : updateTid db wk.addr (ScarHelper.unlock (db wk.addr).tid) a = db a := by
            have hne : ¬(a = wk.addr) := fun h => ha h.symm
            simp [updateTid, hne]
          have hiff : lockedLocalAt P (wk :: rest) a ↔ lockedLocalAt P rest a := by
            constructor
            · rintro ⟨w, hw, h1, h2, h3⟩
              rcases List.mem_cons.1 hw with hww | hww
              · exact absurd (hww ▸ h3) ha
              · exact ⟨w, hww, h1, h2, h3⟩
            · rintro ⟨w, hw, hcond⟩
              exact ⟨w, List.mem_cons_of_mem _ hw, hcond⟩
          constructor
          · intro h
            rw [hstep, (ih _ a).1 (hiff.1 h), hda]
          · intro h
            rw [hstep, (ih _ a).2 (fun hr => h (hiff.2 hr)), hda]
      · have hstep : (abort_loop P db (wk :: rest)).1 = (abort_loop P db rest).1 := by
          simp [abort_loop, hb, hm]
        have hiff : lockedLocalAt P (wk :: rest) a ↔ lockedLocalAt P rest a := by
          constructor
          · rintro ⟨w, hw, h1, h2, h3⟩
            rcases List.mem_cons.1 hw with hww | hww
            · exact absurd (hww ▸ h2) hm
            · exact ⟨w, hww, h1, h2, h3⟩
          · rintro ⟨w, hw, hcond⟩
            exact ⟨w, List.mem_cons_of_mem _ hw, hcond⟩
        constructor
        · intro h
          rw [hstep, (ih db a).1 (hiff.1 h)]
        · intro h
          rw [hstep, (ih db a).2 (fun hr => h (hiff.2 hr))]
    · have hstep : abort_loop P db (wk :: rest) = abort_loop P db rest := by
        simp only [Bool.not_eq_true] at hb
        simp [abort_loop, hb]
      have hiff : lockedLocalAt P (wk :: rest) a ↔ lockedLocalAt P rest a := by
        constructor
        · rintro ⟨w, hw, h1, h2, h3⟩
          rcases List.mem_cons.1 hw with hww | hww
          · exact absurd (hww ▸ h1) hb
          · exact ⟨w, hww, h1, h2, h3⟩
        · rintro ⟨w, hw, hcond⟩
          exact ⟨w, List.mem_cons_of_mem _ hw, hcond⟩
      constructor
      · intro h
        rw [hstep, (ih db a).1 (hiff.1 h)]
      · intro h
        rw [hstep, (ih db a).2 (fun hr => h (hiff.2 hr))]

theorem abort_loop_evs (P : Partitioner) :
    ∀ ws : List ScarRWKey, ∀ db : Db,
    (abort_loop P db ws).2 =
      ws.filterMap (fun wk =>
        if wk.write_lock = true ∧ P.has_master_partition wk.partition_id = false
        then some (Ev.abortMsg (P.master_coordinator wk.partition_id) wk.addr)
        else none) := by
  intro ws
  induction ws with
  | nil => intro db; rfl
  | cons wk rest ih =>
    intro db
    by_cases hb : wk.write_lock = true
    · by_cases hm : P.has_master_partition wk.partition_id = true
      · simp [abort_loop, hb, hm, ih]
      · simp only [Bool.not_eq_true] at hm
        simp [abort_loop, hb, hm, ih]
    · simp only [Bool.not_eq_true] at hb
      simp [abort_loop, hb, ih]

/-- C4: `Scar::abort` releases exactly the write locks that were taken.
For every record address: if the write set holds a key there with the
`write_lock` bit set on a locally-mastered partition, the record's lock bit
is cleared (value and other TID fields kept); otherwise the record is
untouched.  The emitted messages are exactly one `ABORT` to the partition's
master coordinator for each write-set key with the bit set on a non-local
partition (in write-set order), followed by a flush with
`wait_response = false`; the transaction state itself is unchanged (no
waiting). -/
theorem scar_abort_releases_locks (P : Partitioner) (txn : ScarTxn) (db : Db) :
    (∀ a : Addr,
      (lockedLocalAt P txn.writeSet a →
        (scar_abort P txn db).2.1 a =
          { db a with tid := ScarHelper.remove_lock_bit (db a).tid }) ∧
      (¬ lockedLocalAt P txn.writeSet a → (scar_abort P txn db).2.1 a = db a))
    ∧
    (scar_abort P txn db).2.2 =
      txn.writeSet.filterMap (fun wk =>
        if wk.write_lock = true ∧ P.has_master_partition wk.partition_id = false
        then some (Ev.abortMsg (P.master_coordinator wk.partition_id) wk.addr)
        else none) ++ [Ev.sync SyncSite.abortPhase false txn.pendingResponses]
    ∧
    (scar_abort P txn db).1 = txn := by
  refine ⟨fun a => ?_, ?_, rfl⟩
  · exact abort_loop_db_char P txn.writeSet db a
  · simp [scar_abort, sync_messages, abort_loop_evs]

/-- Concrete write key with the `write_lock` bit set, for the C4 witness. -/
def wkC4 : ScarRWKey :=
  ⟨0, 0, 7, 0, ScarHelper.make_tid 3 0 false, false, false, true, false, false⟩

/-- Concrete transaction for the C4 witness. -/
def txnC4 : ScarTxn := ⟨0, [], [wkC4], true, false, 0, 0, 0⟩

/-- Concrete database for the C4 witness: the record is locked. -/
def dbC4 : Db := fun _ => ⟨0, ScarHelper.make_tid 3 0 true⟩

/-- C4 witness: the locked-local clause of `scar_abort_releases_locks` fires
at a concrete locked record. -/
theorem scar_abort_releases_locks_witness :
    (scar_abort pAllLocal txnC4 dbC4).2.1 wkC4.addr =
      { dbC4 wkC4.addr with
        tid := ScarHelper.remove_lock_bit (dbC4 wkC4.addr).tid } :=
  ((scar_abort_releases_locks pAllLocal txnC4 dbC4).1 wkC4.addr).1 (by decide)

/-! ## Claim C3 — fire-and-forget flushes in the Scar commit path -/

/-- Extract the `(site, wait)` data of a flush event. -/
def syncOf : Ev → Option (SyncSite × Bool)
  | Ev.sync s w _ => some (s, w)
  | _ => none

/-- The flushes of an event trace, in order. -/
def syncTrace (evs : List Ev) : List (SyncSite × Bool) := evs.filterMap syncOf

theorem syncTrace_append (a b : List Ev) :
    syncTrace (a ++ b) = syncTrace a ++ syncTrace b :=
  List.filterMap_append a b syncOf

theorem lock_loop_syncTrace (P : Partitioner) (rs : List ScarRWKey) :
    ∀ ws : List ScarRWKey, ∀ i : Nat, ∀ db : Db,
    ∀ r : List ScarRWKey × Db × Bool × Nat × List Ev,
    lock_write_set_loop P rs i db ws = some r → syncTrace r.2.2.2.2 = [] := by
  intro ws
  induction ws with
  | nil =>
    intro i db r h
    simp only [lock_write_set_loop, Option.some_inj] at h
    subst h
    rfl
  | cons wk rest ih =>
    intro i db r h
    by_cases hm : P.has_master_partition wk.partition_id = true
    · simp only [lock_write_set_loop, hm, if_true] at h
      by_cases hl : ScarHelper.is_locked (db wk.addr).tid = true
      · simp only [ScarHelper.lock, hl, if_true] at h
        simp only [Option.some_inj] at h
        subst h
        rfl
      · simp only [Bool.not_eq_true] at hl
        simp only [ScarHelper.lock, hl, Bool.false_eq_true, if_false] at h
        simp only [reduceCtorEq, if_false] at h
        rcases hfind : get_read_key rs wk.key with _ | rk
        · rw [hfind] at h; exact absurd h (by simp)
        · rw [hfind] at h
          by_cases hw : ScarHelper.get_wts (db wk.addr).tid = ScarHelper.get_wts rk.tid
          · simp only [hw, ne_eq, not_true_eq_false, if_false] at h
            rcases hrec : lock_write_set_loop P rs (i + 1)
                (updateTid db wk.addr (ScarHelper.set_lock_bit (db wk.addr).tid)) rest
              with _ | r1
            · rw [hrec] at h; exact absurd h (by simp)
            · rw [hrec] at h
              simp only [Option.some_inj] at h
              subst h
              exact ih (i + 1) _ r1 hrec
          · simp only [hw, ne_eq, not_false_eq_true, if_true, Option.some_inj] at h
            subst h
            rfl
    · simp only [lock_write_set_loop, hm, Bool.false_eq_true, if_false] at h
      rcases hrec : lock_write_set_loop P rs (i + 1) db rest with _ | r1
      · rw [hrec] at h; exact absurd h (by simp)
      · rw [hrec] at h
        simp only [Option.some_inj] at h
        subst h
        simpa [syncTrace, syncOf] using ih (i + 1) db r1 hrec

theorem validate_loop_syncTrace (P : Partitioner) (ws : List ScarRWKey)
    (commit_ts : Nat) :
    ∀ rs : List ScarRWKey, ∀ i : Nat, ∀ db : Db,
    syncTrace (validate_read_set_loop P ws commit_ts i db rs).2.2.2.2 = [] := by
  intro rs
  induction rs with
  | nil => intro i db; rfl
  | cons rk rest ih =>
    intro i db
    by_cases h1 : rk.local_index_read = true
    · simpa [validate_read_set_loop, h1] using ih (i + 1) db
    · simp only [Bool.not_eq_true] at h1
      by_cases h2 : isKeyInWriteSet ws rk.key = true
      · simpa [validate_read_set_loop, h1, h2] using ih (i + 1) db
      · simp only [Bool.not_eq_true] at h2
        by_cases hm : P.has_master_partition rk.partition_id = true
        · by_cases hv : (ScarHelper.validate_read_key (db rk.addr).tid rk.tid
              commit_ts rk.tid).1 = true
          · simpa [validate_read_set_loop, h1, h2, hm, hv] using ih (i + 1) _
          · simp only [Bool.not_eq_true] at hv
            simp [validate_read_set_loop, h1, h2, hm, hv, syncTrace]
        · simpa [validate_read_set_loop, h1, h2, hm, syncTrace, syncOf]
            using ih (i + 1) db

theorem replicate_one_syncTrace (P : Partitioner) (cid cw : Nat) (wk : ScarRWKey) :
    ∀ ks : List Nat, ∀ db : Db,
    syncTrace (replicate_one P cid cw wk db ks).2.2 = [] := by
  intro ks
  induction ks with
  | nil => intro db; rfl
  | cons k rest ih =>
    intro db
    simp only [replicate_one]
    split_ifs with h1 h2 h3
    · exact ih db
    · exact ih db
    · exact ih _
    · simpa [syncTrace, syncOf] using ih db

theorem write_loop_syncTrace (P : Partitioner) (cid cw : Nat) :
    ∀ ws : List ScarRWKey, ∀ db : Db,
    syncTrace (write_and_replicate_loop P cid cw db ws).2.2 = [] := by
  intro ws
  induction ws with
  | nil => intro db; rfl
  | cons wk rest ih =>
    intro db
    by_cases hm : P.has_master_partition wk.partition_id = true
    · simp only [write_and_replicate_loop, hm, if_true]
      rw [syncTrace_append, syncTrace_append, replicate_one_syncTrace, ih]
      rfl
    · simp only [Bool.not_eq_true] at hm
      simp only [write_and_replicate_loop, hm, Bool.false_eq_true, if_false]
      rw [syncTrace_append, syncTrace_append, replicate_one_syncTrace, ih]
      rfl

theorem release_loop_syncTrace (P : Partitioner) (cw : Nat) :
    ∀ ws : List ScarRWKey, ∀ db : Db,
    syncTrace (release_lock_loop P cw db ws).2 = [] := by
  intro ws
  induction ws with
  | nil => intro db; rfl
  | cons wk rest ih =>
    intro db
    by_cases hm : P.has_master_partition wk.partition_id = true
    · simpa [release_lock_loop, hm] using ih _
    · simp only [Bool.not_eq_true] at hm
      simpa [release_lock_loop, hm, syncTrace, syncOf] using ih db

theorem abort_loop_syncTrace (P : Partitioner) :
    ∀ ws : List ScarRWKey, ∀ db : Db,
    syncTrace (abort_loop P db ws).2 = [] := by
  intro ws
  induction ws with
  | nil => intro db; rfl
  | cons wk rest ih =>
    intro db
    by_cases hb : wk.write_lock = true
    · by_cases hm : P.has_master_partition wk.partition_id = true
      · simpa [abort_loop, hb, hm] using ih _
      · simp only [Bool.not_eq_true] at hm
        simpa [abort_loop, hb, hm, syncTrace, syncOf] using ih db
    · simp only [Bool.not_eq_true] at hb
      simpa [abort_loop, hb] using ih db

theorem lock_write_set_syncTrace (P : Partitioner) (txn : ScarTxn) (db : Db)
    (res : ScarTxn × Db × List Ev × Bool)
    (h : lock_write_set P txn db = some res) :
    syncTrace res.2.2.1 = [(SyncSite.lockPhase, true)] := by
  simp only [lock_write_set] at h
  rcases hm : lock_write_set_loop P txn.readSet 0 db txn.writeSet with _ | r
  · rw [hm] at h; exact absurd h (by simp)
  · rw [hm] at h
    simp only [Option.some_inj] at h
    subst h
    rw [syncTrace_append, lock_loop_syncTrace P txn.readSet txn.writeSet 0 db r hm]
    rfl

/-- C3 (amended): in the Scar commit path the only fire-and-forget flushes
are those of `release_lock` and `abort`; the flush at the end of
`write_and_replicate` — which carries the replication and remote-write
messages — is performed with `wait_response = true` and therefore waits
until `pendingResponses` drains.  Concretely: on a successful commit the
flushes are, in order, lock (wait), validate (wait), write-and-replicate
(wait), release (no wait); on a failed commit the trace ends with the abort
flush (no wait); and a flush waits exactly when its site is not
`release_lock`/`abort`. -/
theorem scar_commit_sync_amended (P : Partitioner) (txn : ScarTxn) (db : Db)
    (res : Bool × ScarTxn × Db × List Ev)
    (h : scar_commit P txn db = some res) :
    (res.1 = true → syncTrace res.2.2.2 =
      [(SyncSite.lockPhase, true), (SyncSite.validatePhase, true),
       (SyncSite.writeRepPhase, true), (SyncSite.releasePhase, false)]) ∧
    (res.1 = false → syncTrace res.2.2.2 =
        [(SyncSite.lockPhase, true), (SyncSite.abortPhase, false)] ∨
      syncTrace res.2.2.2 =
        [(SyncSite.lockPhase, true), (SyncSite.validatePhase, true),
         (SyncSite.abortPhase, false)]) ∧
    (∀ s w n, Ev.sync s w n ∈ res.2.2.2 →
      (w = false ↔ (s = SyncSite.releasePhase ∨ s = SyncSite.abortPhase))) := by
  simp only [scar_commit] at h
  rcases hm : lock_write_set P txn db with _ | lr
  · rw [hm] at h; exact absurd h (by simp)
  · rw [hm] at h
    have hlock := lock_write_set_syncTrace P txn db lr hm
    rcases lr with ⟨txn1, db1, evs1, lockFailed⟩
    by_cases hf : lockFailed = true
    · simp only [hf, if_true, Option.some_inj] at h
      subst h
      have htr : syncTrace (evs1 ++ (scar_abort P txn1 db1).2.2) =
          [(SyncSite.lockPhase, true), (SyncSite.abortPhase, false)] := by
        rw [syncTrace_append, hlock]
        simp only [scar_abort, sync_messages]
        rw [syncTrace_append, abort_loop_syncTrace]
        rfl
      refine ⟨by simp, fun _ => Or.inl htr, ?_⟩
      intro s w n hmem
      have hsw : (s, w) ∈ syncTrace (evs1 ++ (scar_abort P txn1 db1).2.2) :=
        List.mem_filterMap.2 ⟨Ev.sync s w n, hmem, rfl⟩
      rw [htr] at hsw
      simp only [List.mem_cons, List.not_mem_nil, or_false, Prod.mk.injEq] at hsw
      rcases hsw with ⟨rfl, rfl⟩ | ⟨rfl, rfl⟩ <;> decide
    · simp only [Bool.not_eq_true] at hf
      subst hf
      simp only [Bool.false_eq_true, if_false] at h
      set txn2 := compute_commit_ts txn1 with htxn2
      rcases hv : validate_read_set P txn2 db1 with ⟨txn3, db3, evs3, ok⟩
      have hval : syncTrace evs3 = [(SyncSite.validatePhase, true)] := by
        have : evs3 = (validate_read_set P txn2 db1).2.2.1 := by rw [hv]
        rw [this]
        simp only [validate_read_set, sync_messages]
        rw [syncTrace_append, validate_loop_syncTrace]
        rfl
      rw [hv] at h
      by_cases hok : ok = true
      · simp only [hok, reduceCtorEq, if_false, Option.some_inj] at h
        subst h
        have hw : syncTrace (write_and_replicate P txn3 db3).2.2 =
            [(SyncSite.writeRepPhase, true)] := by
          simp only [write_and_replicate, sync_messages]
          rw [syncTrace_append, write_loop_syncTrace]
          rfl
        have hrel : syncTrace (release_lock P (write_and_replicate P txn3 db3).1
            (write_and_replicate P txn3 db3).2.1).2.2 =
            [(SyncSite.releasePhase, false)] := by
          simp only [release_lock, sync_messages]
          rw [syncTrace_append, release_loop_syncTrace]
          rfl
        have htr : syncTrace (evs1 ++ evs3 ++ (write_and_replicate P txn3 db3).2.2 ++
            (release_lock P (write_and_replicate P txn3 db3).1
              (write_and_replicate P txn3 db3).2.1).2.2) =
            [(SyncSite.lockPhase, true), (SyncSite.validatePhase, true),
             (SyncSite.writeRepPhase, true), (SyncSite.releasePhase, false)] := by
          rw [syncTrace_append, syncTrace_append, syncTrace_append, hlock, hval, hw, hrel]
          rfl
        refine ⟨fun _ => htr, by simp, ?_⟩
        intro s w n hmem
        have hsw : (s, w) ∈ syncTrace (evs1 ++ evs3 ++ (write_and_replicate P txn3 db3).2.2 ++
            (release_lock P (write_and_replicate P txn3 db3).1
              (write_and_replicate P txn3 db3).2.1).2.2) :=
          List.mem_filterMap.2 ⟨Ev.sync s w n, hmem, rfl⟩
        rw [htr] at hsw
        simp only [List.mem_cons, List.not_mem_nil, or_false, Prod.mk.injEq] at hsw
        rcases hsw with ⟨rfl, rfl⟩ | ⟨rfl, rfl⟩ | ⟨rfl, rfl⟩ | ⟨rfl, rfl⟩ <;> decide
      · simp only [Bool.not_eq_true] at hok
        simp only [hok, if_true, Option.some_inj] at h
        subst h
        have htr : syncTrace (evs1 ++ evs3 ++ (scar_abort P txn3 db3).2.2) =
            [(SyncSite.lockPhase, true), (SyncSite.validatePhase, true),
             (SyncSite.abortPhase, false)] := by
          rw [syncTrace_append, syncTrace_append, hlock, hval]
          simp only [scar_abort, sync_messages]
          rw [syncTrace_append, abort_loop_syncTrace]
          rfl
        refine ⟨by simp, fun _ => Or.inr htr, ?_⟩
        intro s w n hmem
        have hsw : (s, w) ∈ syncTrace (evs1 ++ evs3 ++ (scar_abort P txn3 db3).2.2) :=
          List.mem_filterMap.2 ⟨Ev.sync s w n, hmem, rfl⟩
        rw [htr] at hsw
        simp only [List.mem_cons, List.not_mem_nil, or_false, Prod.mk.injEq] at hsw
        rcases hsw with ⟨rfl, rfl⟩ | ⟨rfl, rfl⟩ | ⟨rfl, rfl⟩ <;> decide

/-- Two-coordinator partitioner: every partition mastered on coordinator 0
and replicated on both coordinators. -/
def pTwoCoord : Partitioner :=
  ⟨fun _ => true, fun _ => 0, 2, fun _ _ => true, 2⟩

/-- Concrete read key (also used as write key) for the C3 counterexample. -/
def rkC3 : ScarRWKey :=
  ⟨0, 0, 0, 9, ScarHelper.make_tid 3 0 false, false, false, false, false, false⟩

/-- Concrete transaction for the C3 counterexample: one read, one write on
the same key. -/
def txnC3 : ScarTxn := ⟨0, [rkC3], [rkC3], false, false, 0, 0, 0⟩

/-- Concrete database for the C3 counterexample. -/
def dbC3 : Db := fun _ => ⟨0, ScarHelper.make_tid 3 0 false⟩

/-- C3 counterexample: this commit succeeds, and its `write_and_replicate`
step — which sent one replication message, leaving `pendingResponses = 1` —
flushes with `wait_response = true`, refuting that the flush after
write-and-replicate is performed with `wait_response = false` and that a
successful commit never blocks on replication replies. -/
theorem scar_commit_waits_on_replication_counterexample :
    (scar_commit pTwoCoord txnC3 dbC3).map (fun r => r.1) = some true ∧
    (scar_commit pTwoCoord txnC3 dbC3).map
        (fun r => decide (Ev.sync SyncSite.writeRepPhase true 1 ∈ r.2.2.2)) =
      some true := by
  refine ⟨by decide, by decide⟩

/-- Empty transaction and database for the C3 witness. -/
def txnE : ScarTxn := ⟨0, [], [], false, false, 0, 0, 0⟩

/-- Constant database for the C3 witness. -/
def dbE : Db := fun _ => ⟨0, 0⟩

/-- C3 witness: the amended theorem applied to a concrete committing
transaction. -/
theorem scar_commit_sync_amended_witness :
    syncTrace [Ev.sync SyncSite.lockPhase true 0, Ev.sync SyncSite.validatePhase true 0,
      Ev.sync SyncSite.writeRepPhase true 0, Ev.sync SyncSite.releasePhase false 0] =
      [(SyncSite.lockPhase, true), (SyncSite.validatePhase, true),
       (SyncSite.writeRepPhase, true), (SyncSite.releasePhase, false)] :=
  (scar_commit_sync_amended pAllLocal txnE dbE
      (true, txnE, dbE,
        [Ev.sync SyncSite.lockPhase true 0, Ev.sync SyncSite.validatePhase true 0,
         Ev.sync SyncSite.writeRepPhase true 0, Ev.sync SyncSite.releasePhase false 0])
      rfl).1 rfl


/-! ## Claim C6 — RNG seed replay in `Executor::start` -/

/-- In a retry iteration (retry flag set, transaction present) the events
are: `process_request`, a reset of the same object, and an execution of that
object with the iteration's starting seed — no generation event. -/
theorem executor_iteration_reset_evs (o : ExecOracle) (st1 : ExecState)
    (t : TxnObj) (hr : st1.retry_transaction = true)
    (ht : st1.transaction = some t) :
    (executor_iteration o st1).2 =
      [ExecEv.processRequest, ExecEv.resetTxn t.objId,
       ExecEv.executeTxn t.objId st1.seed] := by
  rcases ho : o.execResult with _ | _ | _ <;>
    · simp only [executor_iteration, hr, ht, ho, if_true]
      try first
        | rfl
        | (split_ifs <;> rfl)

/-- After an iteration whose commit attempt fails, the seed is restored to
the iteration's starting seed, the retry flag is set, and the transaction
object carries the oracle's abort flags. -/
theorem executor_iteration_fail_state (o : ExecOracle) (st1 : ExecState)
    (h1 : st1.retry_transaction = true → st1.transaction.isSome)
    (hexec : o.execResult = TransactionResult.READY_TO_COMMIT)
    (hfail : o.commitOk = false) :
    (executor_iteration o st1).1.seed = st1.seed ∧
    (executor_iteration o st1).1.retry_transaction = true ∧
    ∃ t : TxnObj, (executor_iteration o st1).1.transaction = some t ∧
      t.abort_lock = o.abortLockFlag ∧ t.abort_read_validation = o.abortRVFlag := by
  rcases hr : st1.retry_transaction with _ | _
  · simp only [executor_iteration, hr, Bool.false_eq_true, if_false, hexec, hfail]
    split_ifs <;> exact ⟨rfl, rfl, ⟨_, rfl, rfl, rfl⟩⟩
  · rcases Option.isSome_iff_exists.1 (h1 hr) with ⟨t, ht⟩
    simp only [executor_iteration, hr, if_true, ht, hexec, hfail,
      Bool.false_eq_true, if_false]
    split_ifs <;> exact ⟨rfl, rfl, ⟨_, rfl, rfl, rfl⟩⟩

/-- After an iteration whose commit succeeds, the retry flag is clear. -/
theorem executor_iteration_success_state (o : ExecOracle) (st1 : ExecState)
    (h1 : st1.retry_transaction = true → st1.transaction.isSome)
    (hexec : o.execResult = TransactionResult.READY_TO_COMMIT)
    (hok : o.commitOk = true) :
    (executor_iteration o st1).1.retry_transaction = false := by
  rcases hr : st1.retry_transaction with _ | _
  · simp only [executor_iteration, hr, Bool.false_eq_true, if_false, hexec, hok,
      if_true]
  · rcases Option.isSome_iff_exists.1 (h1 hr) with ⟨t, ht⟩
    simp only [executor_iteration, hr, if_true, ht, hexec, hok]

/-- C6: whenever the protocol's commit returns false in the executor's main
loop, the state after the iteration carries the RNG seed captured at the
start of that iteration (before the transaction was generated or reset) and
the retry flag; the following iteration then resets the same transaction
object — it emits a reset event for that object and no generation event —
and executes it with the saved seed; a successful commit clears the retry
flag. -/
theorem executor_seed_replay (o1 o2 : ExecOracle) (st : ExecState)
    (h1 : st.retry_transaction = true → st.transaction.isSome)
    (hexec : o1.execResult = TransactionResult.READY_TO_COMMIT)
    (hfail : o1.commitOk = false) :
    (executor_iteration o1 st).1.seed = st.seed ∧
    (executor_iteration o1 st).1.retry_transaction = true ∧
    (∃ t : TxnObj, (executor_iteration o1 st).1.transaction = some t ∧
      ExecEv.resetTxn t.objId ∈ (executor_iteration o2 (executor_iteration o1 st).1).2 ∧
      (∀ m, ExecEv.genTxn m ∉ (executor_iteration o2 (executor_iteration o1 st).1).2) ∧
      ExecEv.executeTxn t.objId st.seed ∈
        (executor_iteration o2 (executor_iteration o1 st).1).2) ∧
    (∀ o : ExecOracle, ∀ st1 : ExecState,
      (st1.retry_transaction = true → st1.transaction.isSome) →
      o.execResult = TransactionResult.READY_TO_COMMIT → o.commitOk = true →
      (executor_iteration o st1).1.retry_transaction = false) := by
  obtain ⟨hseed, hretry, t2, htr, _, _⟩ :=
    executor_iteration_fail_state o1 st h1 hexec hfail
  have hevs2 := executor_iteration_reset_evs o2 (executor_iteration o1 st).1 t2
    hretry htr
  refine ⟨hseed, hretry, ⟨t2, htr, ?_, ?_, ?_⟩, ?_⟩
  · rw [hevs2]; simp
  · intro m; rw [hevs2]; simp
  · rw [hevs2, hseed]; simp
  · intro o st1 h2 he ho
    exact executor_iteration_success_state o st1 h2 he ho

/-- Concrete oracle for the C6 witness: the transaction is ready to commit
but the commit fails with `abort_lock`. -/
def oFail : ExecOracle :=
  ⟨TransactionResult.READY_TO_COMMIT, false, true, false, fun s => s + 1⟩

/-- Initial worker state for the C6/C7 witnesses. -/
def st0 : ExecState := ⟨42, false, none, 0, 0, 0, 0, 0⟩

/-- C6 witness: `executor_seed_replay` at a concrete failing iteration —
the seed is restored to 42 and the retry flag is set. -/
theorem executor_seed_replay_witness :
    (executor_iteration oFail st0).1.seed = st0.seed ∧
    (executor_iteration oFail st0).1.retry_transaction = true :=
  ⟨(executor_seed_replay oFail oFail st0 (by decide) rfl rfl).1,
   (executor_seed_replay oFail oFail st0 (by decide) rfl rfl).2.1⟩

/-! ## Claim C7 — outcome counters in `Executor::start` -/

/-- `Scar::commit` returns false only through one of the two abort paths,
each of which leaves the corresponding abort flag set on the returned
transaction. -/
theorem scar_commit_false_flag (P : Partitioner) (txnP : ScarTxn) (dbP : Db)
    (resP : Bool × ScarTxn × Db × List Ev)
    (h : scar_commit P txnP dbP = some resP) (hfalse : resP.1 = false) :
    resP.2.1.abort_lock = true ∨ resP.2.1.abort_read_validation = true := by
  simp only [scar_commit] at h
  rcases hm : lock_write_set P txnP dbP with _ | lr
  · rw [hm] at h; exact absurd h (by simp)
  · rw [hm] at h
    have hret := lock_write_set_returns_abort_lock P txnP dbP lr hm
    rcases lr with ⟨txn1, db1, evs1, lockFailed⟩
    by_cases hf : lockFailed = true
    · simp only [hf, if_true, Option.some_inj] at h
      subst h
      left
      simpa [scar_abort, sync_messages] using hret ▸ hf
    · simp only [Bool.not_eq_true] at hf
      subst hf
      simp only [Bool.false_eq_true, if_false] at h
      rcases hv : validate_read_set P (compute_commit_ts txn1) db1 with ⟨txn3, db3, evs3, ok⟩
      rw [hv] at h
      by_cases hok : ok = true
      · simp only [hok, reduceCtorEq, if_false, Option.some_inj] at h
        subst h
        simp at hfalse
      · simp only [Bool.not_eq_true] at hok
        subst hok
        simp only [if_true, Option.some_inj] at h
        subst h
        right
        have hv2 : (validate_read_set P (compute_commit_ts txn1) db1).2.2.2 =
            !(validate_read_set P (compute_commit_ts txn1) db1).1.abort_read_validation := by
          simp [validate_read_set, sync_messages]
        rw [hv] at hv2
        simp only at hv2
        have hflag : txn3.abort_read_validation = true := by
          rcases hb : txn3.abort_read_validation with _ | _
          · rw [hb] at hv2; simp at hv2
          · rfl
        simpa [scar_abort, sync_messages] using hflag

/-- C7: every executor loop iteration increments exactly one of the four
outcome counters: `n_commit` when `execute()` returns `READY_TO_COMMIT` and
the commit succeeds; `n_abort_lock` when the commit fails with `abort_lock`
set; `n_abort_read_validation` when the commit fails with `abort_lock`
clear, in which case the transaction's `abort_read_validation` flag holds;
and `n_abort_no_retry` when `execute()` does not return `READY_TO_COMMIT`.
The final conjunct grounds the oracle hypothesis in the protocol:
`Scar::commit` returns false only with one of the two abort flags set. -/
theorem executor_outcome_counters (o : ExecOracle) (st : ExecState)
    (h1 : st.retry_transaction = true → st.transaction.isSome)
    (hwf : o.commitOk = false → (o.abortLockFlag = true ∨ o.abortRVFlag = true)) :
    ((executor_iteration o st).1.n_commit + (executor_iteration o st).1.n_abort_lock +
      (executor_iteration o st).1.n_abort_read_validation +
      (executor_iteration o st).1.n_abort_no_retry =
      st.n_commit + st.n_abort_lock + st.n_abort_read_validation +
        st.n_abort_no_retry + 1) ∧
    (o.execResult = TransactionResult.READY_TO_COMMIT → o.commitOk = true →
      (executor_iteration o st).1.n_commit = st.n_commit + 1 ∧
      (executor_iteration o st).1.n_abort_lock = st.n_abort_lock ∧
      (executor_iteration o st).1.n_abort_read_validation = st.n_abort_read_validation ∧
      (executor_iteration o st).1.n_abort_no_retry = st.n_abort_no_retry) ∧
    (o.execResult = TransactionResult.READY_TO_COMMIT → o.commitOk = false →
      o.abortLockFlag = true →
      (executor_iteration o st).1.n_abort_lock = st.n_abort_lock + 1 ∧
      (executor_iteration o st).1.n_commit = st.n_commit ∧
      (executor_iteration o st).1.n_abort_read_validation = st.n_abort_read_validation ∧
      (executor_iteration o st).1.n_abort_no_retry = st.n_abort_no_retry) ∧
    (o.execResult = TransactionResult.READY_TO_COMMIT → o.commitOk = false →
      o.abortLockFlag = false →
      (executor_iteration o st).1.n_abort_read_validation =
        st.n_abort_read_validation + 1 ∧
      (executor_iteration o st).1.n_commit = st.n_commit ∧
      (executor_iteration o st).1.n_abort_lock = st.n_abort_lock ∧
      (executor_iteration o st).1.n_abort_no_retry = st.n_abort_no_retry ∧
      ∃ t : TxnObj, (executor_iteration o st).1.transaction = some t ∧
        t.abort_read_validation = true) ∧
    (o.execResult ≠ TransactionResult.READY_TO_COMMIT →
      (executor_iteration o st).1.n_abort_no_retry = st.n_abort_no_retry + 1 ∧
      (executor_iteration o st).1.n_commit = st.n_commit ∧
      (executor_iteration o st).1.n_abort_lock = st.n_abort_lock ∧
      (executor_iteration o st).1.n_abort_read_validation = st.n_abort_read_validation) ∧
    (∀ P : Partitioner, ∀ txnP : ScarTxn, ∀ dbP : Db,
      ∀ resP : Bool × ScarTxn × Db × List Ev,
      scar_commit P txnP dbP = some resP → resP.1 = false →
      resP.2.1.abort_lock = true ∨ resP.2.1.abort_read_validation = true) := by
  refine ⟨?_, ?_, ?_, ?_, ?_, ?_⟩
  · rcases hr : st.retry_transaction with _ | _
    · rcases ho : o.execResult with _ | _ | _ <;>
        rcases hok : o.commitOk with _ | _ <;>
          simp only [executor_iteration, hr, ho, hok, if_true, if_false,
            Bool.false_eq_true] <;>
          (try split_ifs) <;> first | omega | (simp; omega)
    · rcases Option.isSome_iff_exists.1 (h1 hr) with ⟨t, ht⟩
      rcases ho : o.execResult with _ | _ | _ <;>
        rcases hok : o.commitOk with _ | _ <;>
          simp only [executor_iteration, hr, ht, ho, hok, if_true, if_false,
            Bool.false_eq_true] <;>
          (try split_ifs) <;> first | omega | (simp; omega)
  · intro ho hok
    rcases hr : st.retry_transaction with _ | _
    · simp [executor_iteration, hr, ho, hok]
    · rcases Option.isSome_iff_exists.1 (h1 hr) with ⟨t, ht⟩
      simp [executor_iteration, hr, ht, ho, hok]
  · intro ho hok hal
    rcases hr : st.retry_transaction with _ | _
    · simp [executor_iteration, hr, ho, hok, hal]
    · rcases Option.isSome_iff_exists.1 (h1 hr) with ⟨t, ht⟩
      simp [executor_iteration, hr, ht, ho, hok, hal]
  · intro ho hok hal
    have hrv : o.abortRVFlag = true := by
      rcases hwf hok with h | h
      · rw [hal] at h; exact absurd h (by simp)
      · exact h
    rcases hr : st.retry_transaction with _ | _
    · refine ⟨?_, ?_, ?_, ?_, ⟨⟨st.nextObjId, false, true, 0⟩, ?_, rfl⟩⟩ <;>
        simp [executor_iteration, hr, ho, hok, hal, hrv]
    · rcases Option.isSome_iff_exists.1 (h1 hr) with ⟨t, ht⟩
      refine ⟨?_, ?_, ?_, ?_,
          ⟨⟨t.objId, false, true, t.resets + 1⟩, ?_, rfl⟩⟩ <;>
        simp [executor_iteration, hr, ht, ho, hok, hal, hrv]
  · intro ho
    rcases hexec : o.execResult with _ | _ | _
    · exact absurd hexec ho
    all_goals
      rcases hr : st.retry_transaction with _ | _
      · simp [executor_iteration, hr, hexec]
      · rcases Option.isSome_iff_exists.1 (h1 hr) with ⟨t, ht⟩
        simp [executor_iteration, hr, ht, hexec]
  · intro P txnP dbP resP h hf
    exact scar_commit_false_flag P txnP dbP resP h hf

/-- C7 witness: `executor_outcome_counters` at a concrete failing iteration —
the abort-lock counter is the one that advances. -/
theorem executor_outcome_counters_witness :
    (executor_iteration oFail st0).1.n_abort_lock = st0.n_abort_lock + 1 :=
  ((executor_outcome_counters oFail st0 (by decide) (fun _ => Or.inl rfl)).2.2.1
    rfl rfl rfl).1

/-! ## Claim C8 — the R-Store phase cycle -/

theorem countItem_append (x : RItem) (l1 l2 : List RItem) :
    countItem x (l1 ++ l2) = countItem x l1 + countItem x l2 := by
  simp [countItem, List.filter_append]

theorem countItem_cons (x y : RItem) (l : List RItem) :
    countItem x (y :: l) = (if y = x then 1 else 0) + countItem x l := by
  simp only [countItem, List.filter_cons]
  split_ifs with h1 h2 h3 <;>
    · simp_all
      try omega

theorem countItem_replicate (x y : RItem) (k : Nat) :
    countItem x (List.replicate k y) = if y = x then k else 0 := by
  induction k with
  | zero => simp [countItem]
  | succ k ih =>
    rw [List.replicate_succ, countItem_cons, ih]
    split_ifs <;> omega

theorem drainBeforeRun_procReq (d : Bool) (k : Nat) (r : List RItem) :
    drainBeforeRun d (List.replicate k RItem.procReq ++ r) = drainBeforeRun d r := by
  induction k with
  | zero => rfl
  | succ k ih => simpa [List.replicate_succ, drainBeforeRun] using ih

theorem drainBeforeRun_yieldWait (d : Bool) (k : Nat) (r : List RItem) :
    drainBeforeRun d (List.replicate k RItem.yieldWait ++ r) = drainBeforeRun d r := by
  induction k with
  | zero => rfl
  | succ k ih => simpa [List.replicate_succ, drainBeforeRun] using ih

theorem drainBeforeRun_commitTxns (d : Bool) (r : List RItem) :
    drainBeforeRun d (RItem.commitTxns :: r) = drainBeforeRun true r := rfl

theorem drainBeforeRun_incStarted (d : Bool) (r : List RItem) :
    drainBeforeRun d (RItem.incStarted :: r) = drainBeforeRun d r := rfl

theorem drainBeforeRun_incComplete (d : Bool) (r : List RItem) :
    drainBeforeRun d (RItem.incComplete :: r) = drainBeforeRun d r := rfl

theorem drainBeforeRun_procReq1 (d : Bool) (r : List RItem) :
    drainBeforeRun d (RItem.procReq :: r) = drainBeforeRun d r := rfl

theorem drainBeforeRun_runTxn (d : Bool) (c : Bool) (r : List RItem) :
    drainBeforeRun d (RItem.runTxn c :: r) = (d && drainBeforeRun false r) := rfl

theorem drainBeforeRun_nil (d : Bool) : drainBeforeRun d [] = true := rfl

/-- C8: in one R-Store cycle — for either kind of coordinator and any number
of observed spin-loop iterations — each of the C-phase and S-phase parts
contains exactly one `n_started_workers` increment (at its head) and exactly
one `n_complete_workers` increment (as its last item); C-phase transactions
run only on coordinator 0 while other coordinators' workers issue only
`process_request` calls during the C-phase part (`n + 1` of them: `n`
while the status is not yet `STOP`, plus one more after); the committed-
transaction queue `q` is drained (`commit_transactions`) before each phase's
transactions execute; and over the whole cycle `n_started_workers` is
incremented exactly twice and `n_complete_workers` exactly three times (the
third increment is the post-`STOP` replication-processing completion, after
the S-phase barrier). -/
theorem rstore_phase_cycle_spec (b : Bool) (n m1 m2 : Nat) :
    countItem RItem.incStarted (cPhasePart b n) = 1 ∧
    countItem RItem.incComplete (cPhasePart b n) = 1 ∧
    (cPhasePart b n).head? = some RItem.incStarted ∧
    (cPhasePart b n).getLast? = some RItem.incComplete ∧
    countItem RItem.incStarted sPhasePart = 1 ∧
    countItem RItem.incComplete sPhasePart = 1 ∧
    sPhasePart.head? = some RItem.incStarted ∧
    sPhasePart.getLast? = some RItem.incComplete ∧
    countItem RItem.incStarted (rstore_cycle b n m1 m2) = 2 ∧
    countItem RItem.incComplete (rstore_cycle b n m1 m2) = 3 ∧
    (RItem.runTxn true ∈ rstore_cycle b n m1 m2 ↔ b = true) ∧
    (b = false →
      countItem RItem.procReq (cPhasePart b n) = n + 1 ∧
      (∀ c, RItem.runTxn c ∉ cPhasePart b n)) ∧
    drainBeforeRun false (rstore_cycle b n m1 m2) = true := by
  rcases b with _ | _
  · refine ⟨?_, ?_, ?_, ?_, by rfl, by rfl, by rfl, by rfl,
      ?_, ?_, ?_, ?_, ?_⟩
    · simp [cPhasePart, countItem_cons, countItem_append, countItem_replicate,
        countItem]
    · simp [cPhasePart, countItem_cons, countItem_append, countItem_replicate,
        countItem]
    · simp [cPhasePart]
    · have hsh : cPhasePart false n =
          (RItem.incStarted :: (List.replicate n RItem.procReq ++ [RItem.procReq]))
            ++ [RItem.incComplete] := by
        simp [cPhasePart]
      rw [hsh, List.getLast?_concat]
    · simp [rstore_cycle, cPhasePart, sPhasePart, postStopPart, countItem_cons,
        countItem_append, countItem_replicate, countItem]
    · simp [rstore_cycle, cPhasePart, sPhasePart, postStopPart, countItem_cons,
        countItem_append, countItem_replicate, countItem]
    · simp [rstore_cycle, cPhasePart, sPhasePart, postStopPart,
        List.mem_append, List.mem_replicate]
    · intro _
      constructor
      · simp [cPhasePart, countItem_cons, countItem_append, countItem_replicate,
          countItem]
      · intro c
        simp [cPhasePart, List.mem_append, List.mem_replicate]
    · simp only [rstore_cycle, cPhasePart, sPhasePart, postStopPart,
        Bool.false_eq_true, if_false, List.cons_append, List.append_assoc,
        List.nil_append]
      rw [drainBeforeRun_commitTxns, drainBeforeRun_incStarted,
        drainBeforeRun_procReq, drainBeforeRun_procReq1,
        drainBeforeRun_incComplete, drainBeforeRun_yieldWait,
        drainBeforeRun_commitTxns, drainBeforeRun_incStarted,
        drainBeforeRun_runTxn, Bool.true_and, drainBeforeRun_incComplete,
        drainBeforeRun_yieldWait, drainBeforeRun_procReq1,
        drainBeforeRun_incComplete, drainBeforeRun_nil]
  · refine ⟨by rfl, by rfl, by rfl, by rfl, by rfl, by rfl, by rfl, by rfl,
      ?_, ?_, ?_, by simp, ?_⟩
    · simp [rstore_cycle, cPhasePart, sPhasePart, postStopPart, countItem_cons,
        countItem_append, countItem_replicate, countItem]
    · simp [rstore_cycle, cPhasePart, sPhasePart, postStopPart, countItem_cons,
        countItem_append, countItem_replicate, countItem]
    · simp [rstore_cycle, cPhasePart, sPhasePart, postStopPart,
        List.mem_append, List.mem_replicate]
    · simp only [rstore_cycle, cPhasePart, sPhasePart, postStopPart, if_true,
        List.cons_append, List.append_assoc, List.nil_append]
      rw [drainBeforeRun_commitTxns, drainBeforeRun_incStarted,
        drainBeforeRun_runTxn, Bool.true_and, drainBeforeRun_incComplete,
        drainBeforeRun_yieldWait, drainBeforeRun_commitTxns,
        drainBeforeRun_incStarted, drainBeforeRun_runTxn, Bool.true_and,
        drainBeforeRun_incComplete, drainBeforeRun_yieldWait,
        drainBeforeRun_procReq1, drainBeforeRun_incComplete,
        drainBeforeRun_nil]

/-- C8 witness: `rstore_phase_cycle_spec` at a concrete non-master worker
cycle — no C-phase transactions run and the loop issues three
`process_request` calls. -/
theorem rstore_phase_cycle_spec_witness :
    countItem RItem.procReq (cPhasePart false 2) = 3 ∧
    (∀ c, RItem.runTxn c ∉ cPhasePart false 2) :=
  (rstore_phase_cycle_spec false 2 0 0).2.2.2.2.2.2.2.2.2.2.2.1 rfl

/-! ## Claim C9 — Aria execution-phase reverse dequeue -/

/-- The length of the maximal suffix of the read set all of whose entries
have the `read_request` bit set (specification-side helper). -/
def pendingSuffixLen (rs : List AriaRWKey) : Nat :=
  (rs.reverse.takeWhile (fun k => k.read_request)).length

theorem pendingSuffixLen_le (rs : List AriaRWKey) :
    pendingSuffixLen rs ≤ rs.length := by
  have h : (rs.reverse.takeWhile (fun k => k.read_request)) ++
      (rs.reverse.dropWhile (fun k => k.read_request)) = rs.reverse :=
    List.takeWhile_append_dropWhile _ _
  have h2 := congrArg List.length h
  simp only [List.length_append, List.length_reverse] at h2
  simp only [pendingSuffixLen]
  omega

theorem pendingSuffixLen_concat (xs : List AriaRWKey) (k : AriaRWKey) :
    pendingSuffixLen (xs ++ [k]) =
      if k.read_request then pendingSuffixLen xs + 1 else 0 := by
  simp only [pendingSuffixLen, List.reverse_append, List.reverse_cons,
    List.reverse_nil, List.nil_append, List.singleton_append,
    List.takeWhile_cons]
  by_cases hk : k.read_request = true
  · simp [hk]
  · simp only [Bool.not_eq_true] at hk
    simp [hk]

/-- The dequeue loop never touches entries at or beyond its countdown
argument: running it on `xs ++ ys` from `xs.length` down leaves `ys`
untouched. -/
theorem aria_loop_append (ys : List AriaRWKey) :
    ∀ i : Nat, ∀ xs : List AriaRWKey, i ≤ xs.length →
    aria_exec_dequeue_loop (xs ++ ys) i =
      ((aria_exec_dequeue_loop xs i).1 ++ ys, (aria_exec_dequeue_loop xs i).2) := by
  intro i
  induction i with
  | zero => intro xs _; rfl
  | succ i ih =>
    intro xs hle
    have hi : i < xs.length := hle
    simp only [aria_exec_dequeue_loop]
    rw [List.getElem?_append_left hi, List.getElem?_eq_getElem hi]
    by_cases hk : (xs[i]).read_request = true
    · simp only [hk, if_true]
      rw [List.set_append_left _ _ hi]
      rw [ih (xs.set i (xs[i]).clearRR) (by simp; omega)]
    · simp only [Bool.not_eq_true] at hk
      simp [hk]

/-- C9: Aria's execution-phase `process_requests` walks the read set from
the last entry toward the first and dequeues exactly the maximal suffix of
entries whose `read_request` bit is set: those entries have the handler
invoked (the invocation list is the indices `n-1, n-2, …, n-s` in call
order) and their bit cleared, the loop stops at the first entry from the
back whose bit is clear (that entry's bit is indeed clear), and all entries
before the suffix are untouched. -/
theorem aria_reverse_dequeue_spec (rs : List AriaRWKey) :
    (aria_process_requests_execution_phase rs).1 =
      rs.take (rs.length - pendingSuffixLen rs) ++
        (rs.drop (rs.length - pendingSuffixLen rs)).map AriaRWKey.clearRR ∧
    (aria_process_requests_execution_phase rs).2 =
      (List.range' (rs.length - pendingSuffixLen rs) (pendingSuffixLen rs)).reverse ∧
    (∀ k ∈ rs.drop (rs.length - pendingSuffixLen rs), k.read_request = true) ∧
    (pendingSuffixLen rs < rs.length →
      ∀ k, rs[rs.length - pendingSuffixLen rs - 1]? = some k →
        k.read_request = false) := by
  induction rs using List.reverseRecOn with
  | nil => exact ⟨rfl, rfl, by simp, by simp⟩
  | append_singleton xs k ih =>
    obtain ⟨ih1, ih2, ih3, ih4⟩ := ih
    have hs' := pendingSuffixLen_le xs
    by_cases hk : k.read_request = true
    · have hps : pendingSuffixLen (xs ++ [k]) = pendingSuffixLen xs + 1 := by
        rw [pendingSuffixLen_concat]
        simp [hk]
      have hidx : (xs.length + 1) - (pendingSuffixLen xs + 1) =
          xs.length - pendingSuffixLen xs := by omega
      have hstep : aria_process_requests_execution_phase (xs ++ [k]) =
          ((aria_exec_dequeue_loop xs xs.length).1 ++ [k.clearRR],
           xs.length :: (aria_exec_dequeue_loop xs xs.length).2) := by
        simp only [aria_process_requests_execution_phase, List.length_append,
          List.length_cons, List.length_nil]
        simp only [aria_exec_dequeue_loop, List.getElem?_concat_length, hk,
          if_true]
        rw [List.set_append_right _ _ (Nat.le_refl _)]
        simp only [Nat.sub_self, List.set_cons_zero]
        rw [aria_loop_append [k.clearRR] xs.length xs (Nat.le_refl _)]
      have hloop : aria_exec_dequeue_loop xs xs.length =
          aria_process_requests_execution_phase xs := rfl
      refine ⟨?_, ?_, ?_, ?_⟩
      · rw [hstep, hps]
        simp only [List.length_append, List.length_cons, List.length_nil, hidx]
        rw [List.take_append_of_le_length (by omega),
          List.drop_append_of_le_length (by omega)]
        rw [hloop, ih1]
        simp [AriaRWKey.clearRR]
      · rw [hstep, hps]
        simp only [List.length_append, List.length_cons, List.length_nil, hidx]
        rw [hloop, ih2]
        have : List.range' (xs.length - pendingSuffixLen xs)
            (pendingSuffixLen xs + 1) =
            List.range' (xs.length - pendingSuffixLen xs) (pendingSuffixLen xs)
              ++ [xs.length] := by
          rw [List.range'_concat]
          congr 1
          simp
          omega
        rw [this]
        simp
      · rw [hps]
        simp only [List.length_append, List.length_cons, List.length_nil, hidx]
        rw [List.drop_append_of_le_length (by omega)]
        intro k1 hk1
        rcases List.mem_append.1 hk1 with h | h
        · exact ih3 k1 h
        · simp only [List.mem_singleton] at h
          rw [h]
          exact hk
      · rw [hps]
        simp only [List.length_append, List.length_cons, List.length_nil, hidx]
        intro hlt k1 hk1
        have hlt' : pendingSuffixLen xs < xs.length := by omega
        have hidx2 : xs.length - pendingSuffixLen xs - 1 < xs.length := by omega
        rw [List.getElem?_append_left hidx2] at hk1
        exact ih4 hlt' k1 hk1
    · simp only [Bool.not_eq_true] at hk
      have hps : pendingSuffixLen (xs ++ [k]) = 0 := by
        rw [pendingSuffixLen_concat]
        simp [hk]
      have hstep : aria_process_requests_execution_phase (xs ++ [k]) =
          (xs ++ [k], []) := by
        simp only [aria_process_requests_execution_phase, List.length_append,
          List.length_cons, List.length_nil]
        simp only [aria_exec_dequeue_loop, List.getElem?_concat_length, hk,
          Bool.false_eq_true, if_false]
      refine ⟨?_, ?_, ?_, ?_⟩
      · rw [hstep, hps]
        simp
      · rw [hstep, hps]
        simp
      · rw [hps]
        simp
      · rw [hps]
        intro _ k1 hk1
        simp only [Nat.sub_zero, List.length_append, List.length_cons,
          List.length_nil] at hk1
        have : xs.length + 1 - 1 = xs.length := by omega
        rw [this, List.getElem?_concat_length] at hk1
        simp only [Option.some_inj] at hk1
        rw [← hk1]
        exact hk

/-- Concrete pending read key for the C9 witness. -/
def akP : AriaRWKey := { AriaRWKey.mk0 with read_request := true }

/-- Concrete non-pending read key for the C9 witness. -/
def akC : AriaRWKey := AriaRWKey.mk0

/-- Concrete read set for the C9 witness: the dequeue stops after one entry. -/
def rsC9 : List AriaRWKey := [akC, akP]

/-- C9 witness: `aria_reverse_dequeue_spec` at a concrete read set — the
suffix entry is pending and the stopping entry's bit is clear. -/
theorem aria_reverse_dequeue_spec_witness :
    akP.read_request = true ∧ akC.read_request = false :=
  ⟨(aria_reverse_dequeue_spec rsC9).2.2.1 akP (by decide),
   (aria_reverse_dequeue_spec rsC9).2.2.2 (by decide) akC (by decide)⟩

/-! ## Claim C10 — Aria workload-facing primitives -/

/-- C10: with `execution_phase` set, `search_for_read`, `search_for_update`,
`search_local_index` and `update` return immediately and leave the whole
transaction state unchanged; with it clear, each call appends exactly one
entry carrying the given table id, partition id, key pointer and value
pointer — the search primitives to the read set with the `read_request` bit
set (`search_local_index` additionally with the `local_index_read` bit),
`update` to the write set with no bits — and every other field of the
transaction is unchanged. -/
theorem aria_primitives_frame_spec (txn : AriaTxn) (t p k v : Nat) :
    (txn.execution_phase = true →
      txn.search_for_read t p k v = txn ∧
      txn.search_for_update t p k v = txn ∧
      txn.search_local_index t p k v = txn ∧
      txn.update t p k v = txn) ∧
    (txn.execution_phase = false →
      txn.search_for_read t p k v =
        { txn with readSet := txn.readSet ++
            [{ AriaRWKey.mk0 with
                table_id := t
                partition_id := p
                key := k
                value := v
                read_request := true }] } ∧
      txn.search_for_update t p k v =
        { txn with readSet := txn.readSet ++
            [{ AriaRWKey.mk0 with
                table_id := t
                partition_id := p
                key := k
                value := v
                read_request := true }] } ∧
      txn.search_local_index t p k v =
        { txn with readSet := txn.readSet ++
            [{ AriaRWKey.mk0 with
                table_id := t
                partition_id := p
                key := k
                value := v
                read_request := true
                local_index_read := true }] } ∧
      txn.update t p k v =
        { txn with writeSet := txn.writeSet ++
            [{ AriaRWKey.mk0 with
                table_id := t
                partition_id := p
                key := k
                value := v }] }) := by
  constructor
  · intro h
    refine ⟨?_, ?_, ?_, ?_⟩ <;>
      simp [AriaTxn.search_for_read, AriaTxn.search_for_update,
        AriaTxn.search_local_index, AriaTxn.update, h]
  · intro h
    refine ⟨?_, ?_, ?_, ?_⟩ <;>
      simp [AriaTxn.search_for_read, AriaTxn.search_for_update,
        AriaTxn.search_local_index, AriaTxn.update, AriaTxn.add_to_read_set,
        AriaTxn.add_to_write_set, h]

/-- Concrete Aria transaction outside the execution phase, for the C10
witness. -/
def atxn0 : AriaTxn :=
  ⟨0, 0, 0, 0, 0, 0, 0, 0, 0, 0, 0, false, false, false, false, false,
   false, false, false, [], [], []⟩

/-- Concrete Aria transaction inside the execution phase, for the C10
witness. -/
def atxn1 : AriaTxn :=
  ⟨0, 0, 0, 0, 0, 0, 0, 0, 0, 0, 0, false, false, false, false, true,
   false, false, false, [], [], []⟩

/-- C10 witness: in the execution phase `search_for_read` is a no-op, and
outside it `update` appends one write-set entry. -/
theorem aria_primitives_frame_spec_witness :
    atxn1.search_for_read 1 2 3 4 = atxn1 ∧
    atxn0.update 1 2 3 4 =
      { atxn0 with writeSet := atxn0.writeSet ++
          [{ AriaRWKey.mk0 with
              table_id := 1
              partition_id := 2
              key := 3
              value := 4 }] } :=
  ⟨((aria_primitives_frame_spec atxn1 1 2 3 4).1 rfl).1,
   ((aria_primitives_frame_spec atxn0 1 2 3 4).2 rfl).2.2.2⟩

end Coco
